import Mathlib

/-!
# Account service: repository, service, handlers and token authenticator

A shallow embedding of the Go packages `internal/users`, `internal/auth` and
`pkg/response`, together with models of the libraries they call
(`mongo-driver`, `x/crypto/bcrypt`, `golang-jwt/jwt/v5`).

Conventions.
* A Go `string` is a Lean `String`; `len` is its UTF-8 byte length and
  `runeCount` its number of code points.
* `time.Now()` is an explicit argument, in nanoseconds since the Unix epoch.
* Stateful code threads the collection state explicitly and returns the
  new state next to the result.
* A Go `error` is a value of `Error`; a `(value, error)` result is an `Except`.
-/

set_option linter.dupNamespace false

namespace Solution7

/-! ## Go strings -/

/-- UTF-8 encoding of one code point, as the list of its bytes. -/
def utf8EncodeRune (c : Char) : List Nat :=
  let n := c.toNat
  if n < 128 then [n]
  else if n < 2048 then [192 + n / 64, 128 + n % 64]
  else if n < 65536 then [224 + n / 4096, 128 + (n / 64) % 64, 128 + n % 64]
  else [240 + n / 262144, 128 + (n / 4096) % 64, 128 + (n / 64) % 64, 128 + n % 64]

/-- Go `[]byte(s)`. -/
def bytes (s : String) : List Nat :=
  (s.data.map utf8EncodeRune).flatten

/-- Go `len(s)`: the number of bytes. -/
def len (s : String) : Nat := (bytes s).length

/-- Go `utf8.RuneCountInString(s)`. -/
def runeCount (s : String) : Nat := s.data.length

/-! ## Errors -/

/-- Sub-errors joined under `jwt.ErrTokenInvalidClaims`. -/
inductive ClaimsError
  | ErrTokenExpired
  | ErrTokenNotValidYet
  | ErrTokenRequiredClaimMissing (claim : String)
  | ErrTokenInvalidAudience
  | ErrTokenInvalidIssuer
  | ErrInvalidType (claim : String)
  deriving DecidableEq, Repr

/-- Go `error` values that occur in the program. The first ten are the
sentinels of `internal/users/errors.go`. -/
inductive Error
  | ErrUserNotFound
  | ErrEmailAlreadyExists
  | ErrInvalidCredentials
  | ErrUnauthorizedAccess
  | ErrInsertFailed
  | ErrUpdateFailed
  | ErrDeleteFailed
  | ErrHashingPassword
  | ErrGeneratingToken
  | ErrInvalidID
  /-- Go `mongo.ErrNoDocuments` -/
  | ErrNoDocuments
  /-- Go `bcrypt.ErrPasswordTooLong` -/
  | ErrPasswordTooLong
  /-- Go `bcrypt.ErrMismatchedHashAndPassword` -/
  | ErrMismatchedHashAndPassword
  /-- Any error `bcrypt` reports for a stored hash it cannot parse. -/
  | ErrHashMalformed
  /-- Go `jwt.ErrTokenMalformed` -/
  | ErrTokenMalformed
  /-- Go `jwt.ErrTokenUnverifiable` -/
  | ErrTokenUnverifiable
  /-- Go `jwt.ErrTokenSignatureInvalid` -/
  | ErrTokenSignatureInvalid
  /-- Go `jwt.ErrTokenInvalidClaims`, with the joined reasons -/
  | ErrTokenInvalidClaims (reasons : List ClaimsError)
  /-- Any other error value (driver, transport, decoding, ...). -/
  | other (msg : String)
  deriving DecidableEq, Repr

deriving instance DecidableEq for Except

/-! ## `bson/primitive` and `time` -/

namespace primitive

/-- A 12-byte ObjectID, as the number its bytes spell in base 256. -/
abbrev ObjectID := Fin (2 ^ 96)

/-- Go `primitive.NilObjectID` -/
def NilObjectID : ObjectID := 0

/-- Go `ObjectID.IsZero` -/
def ObjectID.IsZero (id : ObjectID) : Bool := decide (id = NilObjectID)

/-- Lower-case hexadecimal digit of a value below 16. -/
def hexChar (n : Nat) : Char :=
  if n < 10 then Char.ofNat (48 + n) else Char.ofNat (87 + n)

/-- The `w` least significant hexadecimal digits of `v`, most significant first. -/
def hexDigits : Nat → Nat → List Char
  | 0, _ => []
  | w + 1, v => hexDigits w (v / 16) ++ [hexChar (v % 16)]

/-- Go `ObjectID.Hex`: 24 lower-case hexadecimal digits. -/
def ObjectID.Hex (id : ObjectID) : String := ⟨hexDigits 24 id.val⟩

/-- Value of a hexadecimal digit as `encoding/hex` reads it (both cases). -/
def fromHexChar (c : Char) : Option Nat :=
  let n := c.toNat
  if 48 ≤ n ∧ n ≤ 57 then some (n - 48)
  else if 97 ≤ n ∧ n ≤ 102 then some (n - 87)
  else if 65 ≤ n ∧ n ≤ 70 then some (n - 55)
  else none

/-- Reads hexadecimal digits, most significant first, onto the accumulator. -/
def hexDecode : Nat → List Char → Option Nat
  | acc, [] => some acc
  | acc, c :: cs =>
    match fromHexChar c with
    | none => none
    | some d => hexDecode (acc * 16 + d) cs

/-- Go `primitive.ObjectIDFromHex`: `none` stands for its error result. -/
def ObjectIDFromHex (s : String) : Option ObjectID :=
  if len s ≠ 24 then none
  else match hexDecode 0 s.data with
    | none => none
    | some v => some ⟨v % 2 ^ 96, Nat.mod_lt v (Nat.two_pow_pos 96)⟩

/-- Whether a character is a hexadecimal digit, in either case. -/
def isHexDigit (c : Char) : Bool :=
  decide ('0'.toNat ≤ c.toNat ∧ c.toNat ≤ '9'.toNat) ||
  decide ('a'.toNat ≤ c.toNat ∧ c.toNat ≤ 'f'.toNat) ||
  decide ('A'.toNat ≤ c.toNat ∧ c.toNat ≤ 'F'.toNat)

/-- A well-formed ObjectID hex string: exactly 24 hexadecimal digits. -/
def wellFormedHex (s : String) : Bool :=
  decide (s.data.length = 24) && s.data.all isHexDigit

end primitive

open primitive

/-- A `time.Time`, in nanoseconds since the Unix epoch. -/
abbrev Time := Int

/-- The zero `time.Time` (January 1, year 1, 00:00 UTC). -/
def Time.zero : Time := -62135596800 * 1000000000

/-- Go `Time.IsZero` -/
def Time.IsZero (t : Time) : Bool := decide (t = Time.zero)

/-- Go `Time.Unix`: whole seconds since the epoch (rounded down). -/
def Time.Unix (t : Time) : Int := t / 1000000000

/-- A BSON UTC datetime, in milliseconds since the Unix epoch. -/
abbrev DateTime := Int

/-- Encoding of a `time.Time` as a BSON datetime. -/
def DateTime.ofTime (t : Time) : DateTime := t / 1000000

/-- Decoding of a BSON datetime into a `time.Time`. -/
def DateTime.toTime (d : DateTime) : Time := d * 1000000

/-! ## `internal/users/model.go` -/

namespace users

structure User where
  ID : ObjectID
  Name : String
  Email : String
  Password : String
  CreatedAt : Time
  UpdatedAt : Time
  deriving DecidableEq, Repr

structure LoginUserRequest where
  Email : String
  Password : String
  deriving DecidableEq, Repr

structure CreateUserRequest where
  Name : String
  Email : String
  Password : String
  deriving DecidableEq, Repr

structure UpdateUserRequest where
  Name : String
  Email : String
  deriving DecidableEq, Repr

structure UserResponse where
  ID : ObjectID
  Name : String
  Email : String
  deriving DecidableEq, Repr

end users

/-! ## The document collection (`mongo-driver`) -/

namespace mongo

/-- A document of the `users` collection. The first six fields are the ones
the `bson` tags of `users.User` name; `updatedAt` is the further field that
the `$set` of `UpdateUser` writes. -/
structure Document where
  _id : ObjectID
  name : String
  email : String
  password : String
  created_at : DateTime
  updated_at : DateTime
  updatedAt : Option DateTime
  deriving DecidableEq, Repr

/-- The filters the repository builds. -/
inductive Filter
  /-- Filter `bson.D{}` -/
  | all
  /-- Filter `bson.M{"_id": id}` -/
  | byID (id : ObjectID)
  /-- Filter `bson.M{"email": email}` -/
  | byEmail (email : String)
  /-- Filter `bson.M{"email": email, "_id": bson.M{"$ne": id}}` -/
  | byEmailExcept (email : String) (id : ObjectID)
  deriving DecidableEq, Repr

/-- Whether a document matches a filter. -/
def Filter.isMatch : Filter → Document → Bool
  | .all, _ => true
  | .byID id, d => decide (d._id = id)
  | .byEmail e, d => decide (d.email = e)
  | .byEmailExcept e id, d => decide (d.email = e) && decide (d._id ≠ id)

/-- The `$set` document of `UpdateUser`. -/
structure UpdateSet where
  name : String
  email : String
  updatedAt : DateTime
  deriving DecidableEq, Repr

/-- Applies a `$set` to a document. -/
def UpdateSet.apply (u : UpdateSet) (d : Document) : Document :=
  { d with name := u.name, email := u.email, updatedAt := some u.updatedAt }

/-- Go `SingleResult.Decode(&user)`: fields are read by their `bson` tag. -/
def decodeUser (d : Document) : users.User :=
  { ID := d._id, Name := d.name, Email := d.email, Password := d.password,
    CreatedAt := DateTime.toTime d.created_at, UpdatedAt := DateTime.toTime d.updated_at }

/-- Marshalling of a `users.User` for insertion. `_id` carries `omitempty`:
a zero ID is left out and the driver fills in the identifier it generates. -/
def encodeUser (u : users.User) (generated : ObjectID) : Document :=
  { _id := if u.ID.IsZero then generated else u.ID,
    name := u.Name, email := u.Email, password := u.Password,
    created_at := DateTime.ofTime u.CreatedAt, updated_at := DateTime.ofTime u.UpdatedAt,
    updatedAt := none }

end mongo

open mongo

/-- The interface `users.MongoCollection`, over a backend with states `σ`.
Each operation returns its result; the writing ones also return the next
state. `InsertOne` is also handed the identifier the driver generates for a
document without `_id`; `FindOne` and `FindOneAndUpdate` stand for the call
followed by `Decode`. -/
structure MongoCollection (σ : Type) where
  Find : σ → Filter → Except Error (List users.User)
  FindOne : σ → Filter → Except Error users.User
  InsertOne : σ → users.User → ObjectID → Except Error ObjectID × σ
  FindOneAndUpdate : σ → Filter → UpdateSet → Except Error users.User × σ
  DeleteOne : σ → Filter → Except Error Nat × σ
  CountDocuments : σ → Filter → Except Error Int

namespace mongo

/-- A collection held in memory: its documents in natural order. -/
abbrev Collection := List Document

/-- Replaces the first document matching the filter by its update. -/
def updateFirst (f : Filter) (u : UpdateSet) : Collection → Collection
  | [] => []
  | d :: ds => if f.isMatch d then u.apply d :: ds else d :: updateFirst f u ds

/-- Removes the first document matching the filter. -/
def deleteFirst (f : Filter) : Collection → Collection
  | [] => []
  | d :: ds => if f.isMatch d then ds else d :: deleteFirst f ds

/-- The document store itself: an ordered collection with find, insert,
update, delete and count. `_id` is unique, so an insert whose identifier is
already present fails (duplicate key). No transport failures. -/
def memory : MongoCollection Collection where
  Find := fun s f => .ok ((s.filter f.isMatch).map decodeUser)
  FindOne := fun s f =>
    match s.find? f.isMatch with
    | none => .error .ErrNoDocuments
    | some d => .ok (decodeUser d)
  InsertOne := fun s u generated =>
    let d := encodeUser u generated
    if s.any (fun x => decide (x._id = d._id)) then
      (.error (.other "E11000 duplicate key error"), s)
    else (.ok d._id, s ++ [d])
  FindOneAndUpdate := fun s f u =>
    match s.find? f.isMatch with
    | none => (.error .ErrNoDocuments, s)
    | some d => (.ok (decodeUser (u.apply d)), updateFirst f u s)
  DeleteOne := fun s f =>
    match s.find? f.isMatch with
    | none => (.ok 0, s)
    | some _ => (.ok 1, deleteFirst f s)
  CountDocuments := fun s f => .ok (s.filter f.isMatch).length

end mongo

/-! ## `internal/users/repository.go` -/

namespace users

/-- The filter that `checkEmailUniqueness` builds from its arguments;
`excludeID` is the variadic parameter. -/
def userRepository.uniquenessFilter (email : String) (excludeID : List ObjectID) : Filter :=
  match excludeID with
  | id :: _ => if !id.IsZero then Filter.byEmailExcept email id else Filter.byEmail email
  | [] => Filter.byEmail email

/-- Go `userRepository.checkEmailUniqueness`; `.ok ()` is the `nil` error. -/
def userRepository.checkEmailUniqueness {σ : Type} (collection : MongoCollection σ) (s : σ)
    (email : String) (excludeID : List ObjectID) : Except Error Unit :=
  match collection.FindOne s (userRepository.uniquenessFilter email excludeID) with
  | .error err => if err = .ErrNoDocuments then .ok () else .error err
  | .ok existingUser =>
    if existingUser.Email ≠ "" then .error .ErrEmailAlreadyExists else .ok ()

/-- Go `userRepository.GetUsers` -/
def userRepository.GetUsers {σ : Type} (collection : MongoCollection σ) (s : σ) :
    Except Error (List User) :=
  collection.Find s .all

/-- Go `userRepository.GetUserById` -/
def userRepository.GetUserById {σ : Type} (collection : MongoCollection σ) (s : σ)
    (id : String) : Except Error User :=
  match ObjectIDFromHex id with
  | none => .error .ErrInvalidID
  | some objectID =>
    match collection.FindOne s (.byID objectID) with
    | .error err => if err = .ErrNoDocuments then .error .ErrUserNotFound else .error err
    | .ok user => .ok user

/-- Go `userRepository.GetUserByEmail` -/
def userRepository.GetUserByEmail {σ : Type} (collection : MongoCollection σ) (s : σ)
    (email : String) : Except Error User :=
  match collection.FindOne s (.byEmail email) with
  | .error err => if err = .ErrNoDocuments then .error .ErrUserNotFound else .error err
  | .ok user => .ok user

/-- Go `userRepository.CreateUser`. `now₁` and `now₂` are the two clock readings
and `generated` the identifier the driver generates for the insert. -/
def userRepository.CreateUser {σ : Type} (collection : MongoCollection σ) (s : σ)
    (userReq : CreateUserRequest) (generated : ObjectID) (now₁ now₂ : Time) :
    Except Error User × σ :=
  match userRepository.checkEmailUniqueness collection s userReq.Email [] with
  | .error err => (.error err, s)
  | .ok () =>
    let user : User :=
      { ID := NilObjectID, Name := userReq.Name, Email := userReq.Email,
        Password := userReq.Password, CreatedAt := now₁, UpdatedAt := now₂ }
    match collection.InsertOne s user generated with
    | (.error _, s') => (.error .ErrInsertFailed, s')
    | (.ok insertedID, s') => (.ok { user with ID := insertedID }, s')

/-- Go `userRepository.UpdateUser` -/
def userRepository.UpdateUser {σ : Type} (collection : MongoCollection σ) (s : σ)
    (id : String) (userReq : UpdateUserRequest) (now : Time) : Except Error User × σ :=
  match ObjectIDFromHex id with
  | none => (.error .ErrInvalidID, s)
  | some objectID =>
    match userRepository.checkEmailUniqueness collection s userReq.Email [objectID] with
    | .error err => (.error err, s)
    | .ok () =>
      match collection.FindOneAndUpdate s (.byID objectID)
          { name := userReq.Name, email := userReq.Email, updatedAt := DateTime.ofTime now } with
      | (.error err, s') =>
        if err = .ErrNoDocuments then (.error .ErrUserNotFound, s')
        else (.error .ErrUpdateFailed, s')
      | (.ok user, s') => (.ok user, s')

/-- Go `userRepository.DeleteUser`; `.ok ()` is the `nil` error. -/
def userRepository.DeleteUser {σ : Type} (collection : MongoCollection σ) (s : σ)
    (id : String) : Except Error Unit × σ :=
  match ObjectIDFromHex id with
  | none => (.error .ErrInvalidID, s)
  | some objectID =>
    match collection.DeleteOne s (.byID objectID) with
    | (.error _, s') => (.error .ErrDeleteFailed, s')
    | (.ok deletedCount, s') =>
      if deletedCount = 0 then (.error .ErrUserNotFound, s') else (.ok (), s')

/-- Go `userRepository.CountUsers` -/
def userRepository.CountUsers {σ : Type} (collection : MongoCollection σ) (s : σ) :
    Except Error Int :=
  match collection.CountDocuments s .all with
  | .error err => .error err
  | .ok count => .ok count

/-- One call on the write path of the repository, with what the environment
supplies to it. -/
inductive WriteCall
  | create (userReq : CreateUserRequest) (generated : ObjectID) (now₁ now₂ : Time)
  | update (id : String) (userReq : UpdateUserRequest) (now : Time)
  | delete (id : String)
  deriving DecidableEq, Repr

/-- The collection after one call has run to completion on the store. -/
def WriteCall.run (s : Collection) : WriteCall → Collection
  | .create userReq generated now₁ now₂ =>
    (userRepository.CreateUser memory s userReq generated now₁ now₂).2
  | .update id userReq now => (userRepository.UpdateUser memory s id userReq now).2
  | .delete id => (userRepository.DeleteUser memory s id).2

/-- The collection after a sequence of calls, each run to completion before the next. -/
def runCalls (s : Collection) (calls : List WriteCall) : Collection :=
  calls.foldl WriteCall.run s

/-- A call of `userRepository.CreateUser` in progress, by the backend
operation it performs next: the lookup of the uniqueness check, then the
insert; after that it has returned. -/
inductive CreateUserCall
  | start (userReq : CreateUserRequest) (generated : ObjectID) (now₁ now₂ : Time)
  | checked (userReq : CreateUserRequest) (generated : ObjectID) (now₁ now₂ : Time)
  | returned (result : Except Error User)
  deriving DecidableEq, Repr

/-- The next backend operation of a call of `userRepository.CreateUser`, on the
state the backend has at that moment, with the lines of the body that follow
it up to the next backend operation. -/
def CreateUserCall.step {σ : Type} (collection : MongoCollection σ) (s : σ) :
    CreateUserCall → CreateUserCall × σ
  | .start userReq generated now₁ now₂ =>
    match userRepository.checkEmailUniqueness collection s userReq.Email [] with
    | .error err => (.returned (.error err), s)
    | .ok () => (.checked userReq generated now₁ now₂, s)
  | .checked userReq generated now₁ now₂ =>
    let user : User :=
      { ID := NilObjectID, Name := userReq.Name, Email := userReq.Email,
        Password := userReq.Password, CreatedAt := now₁, UpdatedAt := now₂ }
    match collection.InsertOne s user generated with
    | (.error _, s') => (.returned (.error .ErrInsertFailed), s')
    | (.ok insertedID, s') => (.returned (.ok { user with ID := insertedID }), s')
  | .returned result => (.returned result, s)

/-- Two calls of `userRepository.CreateUser` on one backend. -/
structure TwoCalls (σ : Type) where
  store : σ
  first : CreateUserCall
  second : CreateUserCall

/-- One entry of a schedule: the call named (`false` the first, `true` the
second) performs its next backend operation. -/
def TwoCalls.step {σ : Type} (collection : MongoCollection σ) (c : TwoCalls σ)
    (which : Bool) : TwoCalls σ :=
  if which then
    { c with second := (c.second.step collection c.store).1,
             store := (c.second.step collection c.store).2 }
  else
    { c with first := (c.first.step collection c.store).1,
             store := (c.first.step collection c.store).2 }

/-- Runs two calls under a schedule. -/
def TwoCalls.run {σ : Type} (collection : MongoCollection σ) (c : TwoCalls σ)
    (schedule : List Bool) : TwoCalls σ :=
  schedule.foldl (TwoCalls.step collection) c

end users

/-! ## `x/crypto/bcrypt` -/

namespace bcrypt

def MinCost : Nat := 4
def MaxCost : Nat := 31
def DefaultCost : Nat := 10

/-- The 72 bytes that the Blowfish key schedule reads from a password: the
password followed by a zero byte, repeated cyclically. -/
def keyStream (password : List Nat) : List Nat :=
  let ckey := password ++ [0]
  (List.range 72).map (fun i => ckey.getD (i % ckey.length) 0)

/-- The version and cost part of a hash string, as in "$2a$10$". -/
def hashHeader (cost : Nat) : List Char :=
  ['$', '2', 'a', '$', Char.ofNat (48 + cost / 10), Char.ofNat (48 + cost % 10), '$']

/-- A bcrypt hash string: header, salt, digest. This is an ideal model of
the digest: it is written as the 72 key bytes it is computed from, so that
under one cost and salt two digests are equal exactly when those key bytes
are. Nothing in the program reads a hash except through
`CompareHashAndPassword`. -/
def encodeHash (cost : Nat) (salt key : List Nat) : String :=
  ⟨hashHeader cost ++ (salt ++ key).map Char.ofNat⟩

/-- Go `bcrypt.GenerateFromPassword`; `salt` is the random salt it draws. -/
def GenerateFromPassword (password : String) (cost : Nat) (salt : List Nat) :
    Except Error String :=
  if len password > 72 then .error .ErrPasswordTooLong
  else
    let cost := if cost < MinCost then DefaultCost else cost
    if cost > MaxCost then .error (.other "crypto/bcrypt: cost outside allowed range")
    else .ok (encodeHash cost salt (keyStream (bytes password)))

/-- Whether a string has the shape of a hash: "$2a$", a two-digit cost
within range, "$", and salt and digest after it. -/
def wellFormed (cs : List Char) : Bool :=
  decide (cs.take 4 = ['$', '2', 'a', '$']) &&
  ((cs.drop 4).take 2).all Char.isDigit &&
  decide ((cs.drop 6).take 1 = ['$']) &&
  decide (MinCost ≤ ((cs.drop 4).take 2).foldl (fun n c => 10 * n + (c.toNat - 48)) 0) &&
  decide (((cs.drop 4).take 2).foldl (fun n c => 10 * n + (c.toNat - 48)) 0 ≤ MaxCost) &&
  decide (72 ≤ (cs.drop 7).length)

/-- Go `bcrypt.CompareHashAndPassword`; `.ok ()` is the `nil` error. The digest
of `password` is recomputed under the cost and salt of the stored hash and
compared with the stored digest. -/
def CompareHashAndPassword (hashedPassword password : String) : Except Error Unit :=
  let cs := hashedPassword.data
  if wellFormed cs then
    let digest := (cs.drop 7).drop ((cs.drop 7).length - 72)
    if digest = (keyStream (bytes password)).map Char.ofNat then .ok ()
    else .error .ErrMismatchedHashAndPassword
  else .error .ErrHashMalformed

end bcrypt

/-! ## `crypto/sha256` and the key handling of `crypto/hmac` -/

namespace sha256

def K : List Nat :=
  [
   0x428a2f98, 0x71374491, 0xb5c0fbcf, 0xe9b5dba5, 0x3956c25b, 0x59f111f1, 0x923f82a4, 0xab1c5ed5,
   0xd807aa98, 0x12835b01, 0x243185be, 0x550c7dc3, 0x72be5d74, 0x80deb1fe, 0x9bdc06a7, 0xc19bf174,
   0xe49b69c1, 0xefbe4786, 0x0fc19dc6, 0x240ca1cc, 0x2de92c6f, 0x4a7484aa, 0x5cb0a9dc, 0x76f988da,
   0x983e5152, 0xa831c66d, 0xb00327c8, 0xbf597fc7, 0xc6e00bf3, 0xd5a79147, 0x06ca6351, 0x14292967,
   0x27b70a85, 0x2e1b2138, 0x4d2c6dfc, 0x53380d13, 0x650a7354, 0x766a0abb, 0x81c2c92e, 0x92722c85,
   0xa2bfe8a1, 0xa81a664b, 0xc24b8b70, 0xc76c51a3, 0xd192e819, 0xd6990624, 0xf40e3585, 0x106aa070,
   0x19a4c116, 0x1e376c08, 0x2748774c, 0x34b0bcb5, 0x391c0cb3, 0x4ed8aa4a, 0x5b9cca4f, 0x682e6ff3,
   0x748f82ee, 0x78a5636f, 0x84c87814, 0x8cc70208, 0x90befffa, 0xa4506ceb, 0xbef9a3f7, 0xc67178f2]

def H0 : List Nat :=
  [
   0x6a09e667, 0xbb67ae85, 0x3c6ef372, 0xa54ff53a, 0x510e527f, 0x9b05688c, 0x1f83d9ab, 0x5be0cd19]

def add32 (a b : Nat) : Nat := (a + b) % 2 ^ 32

def rotr (x n : Nat) : Nat := ((x >>> n) ||| (x <<< (32 - n))) % 2 ^ 32

def ch (x y z : Nat) : Nat := (x &&& y) ^^^ ((x ^^^ 0xffffffff) &&& z)

def maj (x y z : Nat) : Nat := (x &&& y) ^^^ (x &&& z) ^^^ (y &&& z)

def bigSigma0 (x : Nat) : Nat := rotr x 2 ^^^ rotr x 13 ^^^ rotr x 22

def bigSigma1 (x : Nat) : Nat := rotr x 6 ^^^ rotr x 11 ^^^ rotr x 25

def smallSigma0 (x : Nat) : Nat := rotr x 7 ^^^ rotr x 18 ^^^ (x >>> 3)

def smallSigma1 (x : Nat) : Nat := rotr x 17 ^^^ rotr x 19 ^^^ (x >>> 10)

/-- Message padding: a one bit, zeros, and the bit length in 64 bits. -/
def pad (msg : List Nat) : List Nat :=
  msg ++ [128] ++ List.replicate ((119 - msg.length % 64) % 64) 0 ++
    (List.range 8).map (fun i => (8 * msg.length) >>> (8 * (7 - i)) % 256)

/-- Big-endian 32-bit words of a byte list. -/
def toWords : List Nat → List Nat
  | a :: b :: c :: d :: rest => (((a * 256 + b) * 256 + c) * 256 + d) :: toWords rest
  | _ => []

/-- Extends the 16 words of a block to the 64 words of the message schedule. -/
def schedule (block : List Nat) : List Nat :=
  (List.range 48).foldl (fun w i =>
    w ++ [add32 (add32 (smallSigma1 (w.getD (i + 14) 0)) (w.getD (i + 9) 0))
           (add32 (smallSigma0 (w.getD (i + 1) 0)) (w.getD i 0))]) block

/-- One round of the compression function on the eight working variables. -/
def round (v : List Nat) (kw : Nat) : List Nat :=
  match v with
  | [a, b, c, d, e, f, g, h] =>
    let t1 := add32 (add32 (add32 h (bigSigma1 e)) (ch e f g)) kw
    let t2 := add32 (bigSigma0 a) (maj a b c)
    [add32 t1 t2, a, b, c, add32 d t1, e, f, g]
  | _ => v

/-- The compression function: hash state and 16-word block to hash state. -/
def compress (h block : List Nat) : List Nat :=
  let w := schedule block
  let v := (List.zipWith add32 K w).foldl round h
  List.zipWith add32 h v

/-- Splits a list into chunks of `n` elements (`fuel` bounds the number of chunks). -/
def chunks (n : Nat) : Nat → List Nat → List (List Nat)
  | 0, _ => []
  | fuel + 1, l => if l.isEmpty then [] else l.take n :: chunks n fuel (l.drop n)

/-- Go `sha256.Sum256`, on byte lists. -/
def sum256 (msg : List Nat) : List Nat :=
  let words := toWords (pad msg)
  let h := (chunks 16 words.length words).foldl compress H0
  (h.map (fun x => [x >>> 24 % 256, x >>> 16 % 256, x >>> 8 % 256, x % 256])).flatten

end sha256

namespace hmac

/-- The key block of HMAC-SHA256: a key longer than the 64-byte block is
replaced by its digest, and the key is then padded with zero bytes to 64. -/
def keyBlock (key : List Nat) : List Nat :=
  let k := if key.length > 64 then sha256.sum256 key else key
  k ++ List.replicate (64 - k.length) 0

end hmac

/-! ## `golang-jwt/jwt/v5` -/

namespace jwt

/-- A claim value, as far as the getters of `MapClaims` tell values apart. -/
inductive Value
  /-- a string -/
  | str (s : String)
  /-- a number (whole seconds: fractions of a second are cut off by `NumericDate`) -/
  | num (n : Int)
  /-- an array of strings -/
  | strs (l : List String)
  /-- an array with an element that is not a string -/
  | mixed
  /-- any other value (boolean, null, object) -/
  | other
  deriving DecidableEq, Repr

/-- Go `jwt.MapClaims`: claim names with their values. -/
abbrev MapClaims := List (String × Value)

/-- The signature segment of a token, relative to the signing input of the
token that carries it. HMAC is taken to be ideal: a byte string is the
HMAC-SHA256 of a given input under at most one key block. -/
inductive Signature
  /-- HMAC-SHA256 of the signing input of this token under the key block -/
  | hs256 (keyBlock : List Nat)
  /-- any other byte string -/
  | other
  /-- a segment that is not base64url -/
  | undecodable
  deriving DecidableEq, Repr

/-- A token string, by what it decodes to. -/
inductive TokenString
  /-- a string that is not three segments whose first two decode to JSON objects -/
  | malformed (raw : String)
  /-- header (its `alg`, if it is a string), claims and signature -/
  | compact (alg : Option String) (claims : MapClaims) (signature : Signature)
  deriving DecidableEq, Repr

/-- Go `jwt.Token` -/
structure Token where
  Raw : TokenString
  Method : String
  Claims : MapClaims
  Signature : Signature
  Valid : Bool
  deriving DecidableEq, Repr

/-- Names of the registered signing methods (`jwt.GetSigningMethod`). -/
def signingMethods : List String :=
  ["HS256", "HS384", "HS512", "RS256", "RS384", "RS512", "PS256", "PS384", "PS512",
   "ES256", "ES384", "ES512", "EdDSA", "none"]

/-- Whether the method is a `*jwt.SigningMethodHMAC`. -/
def isHMAC (method : String) : Bool :=
  method = "HS256" || method = "HS384" || method = "HS512"

/-- Go `MapClaims.parseNumericDate` -/
def MapClaims.parseNumericDate (m : MapClaims) (key : String) : Except ClaimsError (Option Int) :=
  match m.lookup key with
  | none => .ok none
  | some (.num n) => if n = 0 then .ok none else .ok (some n)
  | some _ => .error (.ErrInvalidType key)

/-- Go `MapClaims.parseClaimsString` -/
def MapClaims.parseClaimsString (m : MapClaims) (key : String) : Except ClaimsError (List String) :=
  match m.lookup key with
  | some (.str s) => .ok [s]
  | some (.strs l) => .ok l
  | some .mixed => .error (.ErrInvalidType key)
  | _ => .ok []

/-- Go `MapClaims.parseString` -/
def MapClaims.parseString (m : MapClaims) (key : String) : Except ClaimsError String :=
  match m.lookup key with
  | none => .ok ""
  | some (.str s) => .ok s
  | some _ => .error (.ErrInvalidType key)

/-- The settings of `jwt.Validator` that parser options can change here
(leeway is zero and `iat` is not verified). -/
structure Validator where
  requireExp : Bool
  expectedAud : String
  expectedIss : String
  deriving DecidableEq, Repr

def errorIfRequired (required : Bool) (claim : String) : Option ClaimsError :=
  if required then some (.ErrTokenRequiredClaimMissing claim) else none

def errorIfFalse (value : Bool) (err : ClaimsError) : Option ClaimsError :=
  if value then none else some err

/-- Go `Validator.verifyExpiresAt`: `cmp.Before(exp)` -/
def Validator.verifyExpiresAt (claims : MapClaims) (cmp : Time) (required : Bool) :
    Option ClaimsError :=
  match claims.parseNumericDate "exp" with
  | .error e => some e
  | .ok none => errorIfRequired required "exp"
  | .ok (some exp) => errorIfFalse (decide (cmp < exp * 1000000000)) .ErrTokenExpired

/-- Go `Validator.verifyNotBefore`: `!cmp.Before(nbf)` -/
def Validator.verifyNotBefore (claims : MapClaims) (cmp : Time) (required : Bool) :
    Option ClaimsError :=
  match claims.parseNumericDate "nbf" with
  | .error e => some e
  | .ok none => errorIfRequired required "nbf"
  | .ok (some nbf) => errorIfFalse (!decide (cmp < nbf * 1000000000)) .ErrTokenNotValidYet

/-- Go `Validator.verifyAudience` -/
def Validator.verifyAudience (claims : MapClaims) (cmp : String) (required : Bool) :
    Option ClaimsError :=
  match claims.parseClaimsString "aud" with
  | .error e => some e
  | .ok aud =>
    if aud.length = 0 then errorIfRequired required "aud"
    else if String.join aud = "" then errorIfRequired required "aud"
    else errorIfFalse (aud.any (fun a => decide (a = cmp))) .ErrTokenInvalidAudience

/-- Go `Validator.verifyIssuer` -/
def Validator.verifyIssuer (claims : MapClaims) (cmp : String) (required : Bool) :
    Option ClaimsError :=
  match claims.parseString "iss" with
  | .error e => some e
  | .ok iss =>
    if iss = "" then errorIfRequired required "iss"
    else errorIfFalse (decide (iss = cmp)) .ErrTokenInvalidIssuer

/-- Go `Validator.Validate`: the errors it collects, in order; none means valid. -/
def Validator.Validate (v : Validator) (claims : MapClaims) (now : Time) : List ClaimsError :=
  (Validator.verifyExpiresAt claims now v.requireExp).toList ++
  (Validator.verifyNotBefore claims now false).toList ++
  (if v.expectedAud ≠ "" then (Validator.verifyAudience claims v.expectedAud true).toList
   else []) ++
  (if v.expectedIss ≠ "" then (Validator.verifyIssuer claims v.expectedIss true).toList
   else [])

/-- Go `SigningMethodHMAC.Verify` for HS256: the signature must be the HMAC of
the signing input under the key. -/
def verifyHS256 (signature : Signature) (key : List Nat) : Bool :=
  decide (signature = .hs256 (hmac.keyBlock key))

/-- Go `jwt.Parse` with a key function, a validator and the list of valid
methods, at time `now`. The result is the error, or the token when there is
none. Signatures are verified for HS256 only; here no other method passes
the list of valid methods. -/
def Parse (tokenString : TokenString) (keyFunc : Token → Except Error (List Nat))
    (validator : Validator) (validMethods : List String) (now : Time) : Except Error Token :=
  match tokenString with
  | .malformed _ => .error .ErrTokenMalformed
  | .compact none _ _ => .error .ErrTokenUnverifiable
  | .compact (some alg) claims signature =>
    if ¬ alg ∈ signingMethods then .error .ErrTokenUnverifiable
    else if ¬ alg ∈ validMethods then .error .ErrTokenSignatureInvalid
    else if signature = .undecodable then .error .ErrTokenMalformed
    else
      let token : Token :=
        { Raw := tokenString, Method := alg, Claims := claims, Signature := signature,
          Valid := false }
      match keyFunc token with
      | .error _ => .error .ErrTokenUnverifiable
      | .ok key =>
        if ¬ (alg = "HS256" ∧ verifyHS256 signature key) then .error .ErrTokenSignatureInvalid
        else
          match validator.Validate claims now with
          | [] => .ok { token with Valid := true }
          | errs => .error (.ErrTokenInvalidClaims errs)

end jwt

/-! ## `internal/auth` -/

namespace auth

/-- The interface `auth.IAuthenticator`. `ValidateToken` also takes the time
of the call and `GenerateClaims` its three clock readings, in order. -/
structure IAuthenticator where
  GenerateToken : jwt.MapClaims → Except Error jwt.TokenString
  ValidateToken : jwt.TokenString → Time → Except Error jwt.Token
  GenerateClaims : ObjectID → Time → Time → Time → jwt.MapClaims

/-- Go `auth.JWTAuthenticator`; `expiresAt` is a `time.Duration`, in nanoseconds. -/
structure JWTAuthenticator where
  secret : String
  audience : String
  issuer : String
  expiresAt : Int
  deriving DecidableEq, Repr

/-- Go `JWTAuthenticator.GenerateToken`: an HS256 token over the claims, signed
with the secret. -/
def JWTAuthenticator.GenerateToken (a : JWTAuthenticator) (claims : jwt.MapClaims) :
    Except Error jwt.TokenString :=
  .ok (.compact (some "HS256") claims (.hs256 (hmac.keyBlock (bytes a.secret))))

/-- Go `JWTAuthenticator.ValidateToken` -/
def JWTAuthenticator.ValidateToken (a : JWTAuthenticator) (token : jwt.TokenString)
    (now : Time) : Except Error jwt.Token :=
  jwt.Parse token
    (fun t =>
      if ¬ jwt.isHMAC t.Method then .error (.other "unexpected signing method")
      else .ok (bytes a.secret))
    { requireExp := true, expectedAud := a.audience, expectedIss := a.issuer }
    ["HS256"] now

/-- Go `JWTAuthenticator.GenerateClaims`; `now₁`, `now₂`, `now₃` are its three
clock readings, for `exp`, `iat` and `nbf`. -/
def JWTAuthenticator.GenerateClaims (a : JWTAuthenticator) (id : ObjectID)
    (now₁ now₂ now₃ : Time) : jwt.MapClaims :=
  [("sub", .str id.Hex),
   ("exp", .num (Time.Unix (now₁ + a.expiresAt))),
   ("iat", .num (Time.Unix now₂)),
   ("nbf", .num (Time.Unix now₃)),
   ("iss", .str a.issuer),
   ("aud", .str a.audience)]

/-- A `*JWTAuthenticator` as an `IAuthenticator`. -/
def JWTAuthenticator.toIAuthenticator (a : JWTAuthenticator) : IAuthenticator where
  GenerateToken := a.GenerateToken
  ValidateToken := a.ValidateToken
  GenerateClaims := a.GenerateClaims

end auth

/-! ## `internal/users`: projections, service -/

namespace users

structure UserResponseWithMessage extends UserResponse where
  Message : String
  deriving DecidableEq, Repr

structure UserResponseWithToken extends UserResponse where
  Token : jwt.TokenString
  deriving DecidableEq, Repr

/-- Go `User.ToResponse` -/
def User.ToResponse (u : User) : UserResponse :=
  { ID := u.ID, Name := u.Name, Email := u.Email }

/-- Go `User.ToResponseWithMessage` -/
def User.ToResponseWithMessage (u : User) (message : String) : UserResponseWithMessage :=
  { toUserResponse := { ID := u.ID, Name := u.Name, Email := u.Email }, Message := message }

/-- Go `User.ToResponseWithToken` -/
def User.ToResponseWithToken (u : User) (token : jwt.TokenString) : UserResponseWithToken :=
  { toUserResponse := { ID := u.ID, Name := u.Name, Email := u.Email }, Token := token }

/-- The interface `users.IUserRepository`, over a backend with states `σ`. -/
structure IUserRepository (σ : Type) where
  GetUsers : σ → Except Error (List User)
  GetUserById : σ → String → Except Error User
  GetUserByEmail : σ → String → Except Error User
  CreateUser : σ → CreateUserRequest → ObjectID → Time → Time → Except Error User × σ
  UpdateUser : σ → String → UpdateUserRequest → Time → Except Error User × σ
  DeleteUser : σ → String → Except Error Unit × σ
  CountUsers : σ → Except Error Int

/-- Go `users.NewUserRepositoryWithCollection` -/
def NewUserRepositoryWithCollection {σ : Type} (collection : MongoCollection σ) :
    IUserRepository σ where
  GetUsers := userRepository.GetUsers collection
  GetUserById := userRepository.GetUserById collection
  GetUserByEmail := userRepository.GetUserByEmail collection
  CreateUser := userRepository.CreateUser collection
  UpdateUser := userRepository.UpdateUser collection
  DeleteUser := userRepository.DeleteUser collection
  CountUsers := userRepository.CountUsers collection

/-- Go `userService.GetUsers` -/
def userService.GetUsers {σ : Type} (repo : IUserRepository σ) (s : σ) :
    Except Error (List UserResponse) :=
  match repo.GetUsers s with
  | .error err => .error err
  | .ok users => .ok (users.map User.ToResponse)

/-- Go `userService.GetUserById` -/
def userService.GetUserById {σ : Type} (repo : IUserRepository σ) (s : σ) (id : String) :
    Except Error UserResponse :=
  match repo.GetUserById s id with
  | .error err => .error err
  | .ok user => .ok user.ToResponse

/-- Go `userService.CreateUser`. From the environment: the salt the hasher
draws, the identifier the driver generates, the two clock readings of the
repository and the three of `GenerateClaims`. -/
def userService.CreateUser {σ : Type} (repo : IUserRepository σ) (jwt : auth.IAuthenticator)
    (s : σ) (userReq : CreateUserRequest) (salt : List Nat) (generated : ObjectID)
    (now₁ now₂ now₃ now₄ now₅ : Time) : Except Error UserResponseWithToken × σ :=
  match bcrypt.GenerateFromPassword userReq.Password bcrypt.DefaultCost salt with
  | .error err => (.error err, s)
  | .ok hashPassword =>
    let userReq := { userReq with Password := hashPassword }
    match repo.CreateUser s userReq generated now₁ now₂ with
    | (.error err, s') => (.error err, s')
    | (.ok user, s') =>
      let claims := jwt.GenerateClaims user.ID now₃ now₄ now₅
      match jwt.GenerateToken claims with
      | .error err => (.error err, s')
      | .ok token => (.ok (user.ToResponseWithToken token), s')

/-- Go `userService.UpdateUser` -/
def userService.UpdateUser {σ : Type} (repo : IUserRepository σ) (s : σ) (id : String)
    (userReq : UpdateUserRequest) (now : Time) : Except Error UserResponseWithMessage × σ :=
  match repo.UpdateUser s id userReq now with
  | (.error err, s') => (.error err, s')
  | (.ok user, s') => (.ok (user.ToResponseWithMessage "User updated successfully"), s')

/-- Go `userService.DeleteUser` -/
def userService.DeleteUser {σ : Type} (repo : IUserRepository σ) (s : σ) (id : String) :
    Except Error Unit × σ :=
  repo.DeleteUser s id

/-- Go `userService.Login`; `now₁`, `now₂`, `now₃` are the clock readings of
`GenerateClaims`. -/
def userService.Login {σ : Type} (repo : IUserRepository σ) (jwt : auth.IAuthenticator)
    (s : σ) (userReq : LoginUserRequest) (now₁ now₂ now₃ : Time) :
    Except Error UserResponseWithToken :=
  match repo.GetUserByEmail s userReq.Email with
  | .error err => .error err
  | .ok user =>
    match bcrypt.CompareHashAndPassword user.Password userReq.Password with
    | .error err =>
      if err = .ErrMismatchedHashAndPassword then .error .ErrInvalidCredentials
      else .error err
    | .ok () =>
      let claims := jwt.GenerateClaims user.ID now₁ now₂ now₃
      match jwt.GenerateToken claims with
      | .error err => .error err
      | .ok token => .ok (user.ToResponseWithToken token)

/-- Go `userService.CountUsers` -/
def userService.CountUsers {σ : Type} (repo : IUserRepository σ) (s : σ) : Except Error Int :=
  repo.CountUsers s

/-- The interface `users.IUserService`. -/
structure IUserService (σ : Type) where
  GetUsers : σ → Except Error (List UserResponse)
  GetUserById : σ → String → Except Error UserResponse
  Login : σ → LoginUserRequest → Time → Time → Time → Except Error UserResponseWithToken
  CreateUser : σ → CreateUserRequest → List Nat → ObjectID → Time → Time → Time → Time → Time →
    Except Error UserResponseWithToken × σ
  UpdateUser : σ → String → UpdateUserRequest → Time → Except Error UserResponseWithMessage × σ
  DeleteUser : σ → String → Except Error Unit × σ
  CountUsers : σ → Except Error Int

/-- Go `users.NewUserService` -/
def NewUserService {σ : Type} (repo : IUserRepository σ) (jwt : auth.IAuthenticator) :
    IUserService σ where
  GetUsers := userService.GetUsers repo
  GetUserById := userService.GetUserById repo
  Login := userService.Login repo jwt
  CreateUser := userService.CreateUser repo jwt
  UpdateUser := userService.UpdateUser repo
  DeleteUser := userService.DeleteUser repo
  CountUsers := userService.CountUsers repo

/-! ### The `validate` tags of the request types (`middleware.ValidateRequest`) -/

/-- Tag `required,min=3,max=50` on a string: non-empty, and between 3 and 50 code points. -/
def validName (s : String) : Bool :=
  decide (s ≠ "") && decide (3 ≤ runeCount s) && decide (runeCount s ≤ 50)

/-- Tag `required,min=6,max=50` on a string. -/
def validPassword (s : String) : Bool :=
  decide (s ≠ "") && decide (6 ≤ runeCount s) && decide (runeCount s ≤ 50)

/-- Tag `required,email` on a string; `isEmail` is the address format test of
the validator library. -/
def validEmail (isEmail : String → Bool) (s : String) : Bool :=
  decide (s ≠ "") && isEmail s

/-- Go `validate.Struct` on a `CreateUserRequest`. -/
def CreateUserRequest.valid (isEmail : String → Bool) (r : CreateUserRequest) : Bool :=
  validName r.Name && validEmail isEmail r.Email && validPassword r.Password

/-- Go `validate.Struct` on a `LoginUserRequest`. -/
def LoginUserRequest.valid (isEmail : String → Bool) (r : LoginUserRequest) : Bool :=
  validEmail isEmail r.Email && validPassword r.Password

end users

/-! ## `pkg/response` -/

namespace response

structure ErrorResponse where
  TraceId : String
  Message : String
  deriving DecidableEq, Repr

/-- Go `response.Response`, with payloads of type `α` (`none` is the nil payload). -/
structure Response (α : Type) where
  StatusCode : Nat
  Data : Option α
  ErrorRes : Option ErrorResponse
  IsError : Bool
  deriving DecidableEq, Repr

/-- What `Response()` sends: the JSON body is the error payload or the data. -/
inductive Body (α : Type)
  | error (e : Option ErrorResponse)
  | data (d : Option α)
  deriving DecidableEq, Repr

/-- Go `response.NewResponse` -/
def NewResponse {α : Type} : Response α :=
  { StatusCode := 0, Data := none, ErrorRes := none, IsError := false }

/-- Go `Response.Success` -/
def Response.Success {α : Type} (r : Response α) (code : Nat) (data : Option α) : Response α :=
  { r with StatusCode := code, Data := data }

/-- Go `Response.Error` -/
def Response.Error {α : Type} (r : Response α) (code : Nat) (traceId msg : String) :
    Response α :=
  { r with StatusCode := code, ErrorRes := some { TraceId := traceId, Message := msg },
           IsError := true }

/-- Go `Response.Response`: the status and body sent. -/
def Response.Response {α : Type} (r : Response α) : Nat × Body α :=
  (r.StatusCode, if r.IsError then .error r.ErrorRes else .data r.Data)

/-- A call on a `*Response`: `Success(code, data)` or `Error(code, traceId, msg)`. -/
inductive Call (α : Type)
  | success (code : Nat) (data : Option α)
  | error (code : Nat) (traceId msg : String)
  deriving DecidableEq, Repr

/-- Whether the call is an `Error` call. -/
def Call.isError {α : Type} : Call α → Bool
  | .success _ _ => false
  | .error _ _ _ => true

/-- The response after the call. -/
def Call.apply {α : Type} (r : Response α) : Call α → Response α
  | .success code data => r.Success code data
  | .error code traceId msg => r.Error code traceId msg

/-- The response built from `NewResponse` by the calls, in order. -/
def build {α : Type} (calls : List (Call α)) : Response α :=
  calls.foldl Call.apply NewResponse

end response

/-! ## `internal/users/handler.go` -/

namespace fiber

def StatusOK : Nat := 200
def StatusBadRequest : Nat := 400
def StatusUnauthorized : Nat := 401
def StatusNotFound : Nat := 404
def StatusConflict : Nat := 409
def StatusInternalServerError : Nat := 500

end fiber

namespace users

open response

/-- Go `userHandler.Login`. `body` is the outcome of `c.BodyParser`: the request,
or the message of the parse error. -/
def userHandler.Login {σ : Type} (service : IUserService σ) (s : σ)
    (body : Except String LoginUserRequest) (now₁ now₂ now₃ : Time) :
    Nat × Body UserResponseWithToken :=
  match body with
  | .error msg => ((NewResponse).Error fiber.StatusBadRequest "" msg).Response
  | .ok loginReq =>
    match service.Login s loginReq now₁ now₂ now₃ with
    | .error err =>
      if err = .ErrInvalidCredentials then
        ((NewResponse).Error fiber.StatusUnauthorized "" "Invalid email or password provided.").Response
      else if err = .ErrUserNotFound then
        ((NewResponse).Error fiber.StatusNotFound "" "User not found.").Response
      else
        ((NewResponse).Error fiber.StatusInternalServerError ""
          "An unexpected error occurred during login.").Response
    | .ok user => ((NewResponse).Success fiber.StatusOK (some user)).Response

/-- Go `userHandler.UpdateUser`. `id` is the path parameter, `tokenUser` the
string that the token middleware stored under "userId", `body` the outcome
of `c.BodyParser`. The state returned is the one the service hands back, or
the given one when the service is not called. -/
def userHandler.UpdateUser {σ : Type} (service : IUserService σ) (s : σ)
    (id tokenUser : String) (body : Except String UpdateUserRequest) (now : Time) :
    (Nat × Body UserResponseWithMessage) × σ :=
  if id = "" then
    (((NewResponse).Error fiber.StatusBadRequest id "id is required").Response, s)
  else if tokenUser ≠ id then
    (((NewResponse).Error fiber.StatusUnauthorized id "Unauthorized").Response, s)
  else
    match body with
    | .error msg => (((NewResponse).Error fiber.StatusBadRequest id msg).Response, s)
    | .ok userReq =>
      match service.UpdateUser s id userReq now with
      | (.error err, s') =>
        if err = .ErrUserNotFound then
          (((NewResponse).Error fiber.StatusNotFound id
            "The user you are trying to update was not found.").Response, s')
        else if err = .ErrEmailAlreadyExists then
          (((NewResponse).Error fiber.StatusConflict id
            "Cannot update user: email already exists.").Response, s')
        else if err = .ErrUpdateFailed then
          (((NewResponse).Error fiber.StatusInternalServerError id
            "Failed to update user due to an internal error.").Response, s')
        else
          (((NewResponse).Error fiber.StatusInternalServerError id
            "An unexpected error occurred while updating the user.").Response, s')
      | (.ok updatedUser, s') =>
        (((NewResponse).Success fiber.StatusOK (some updatedUser)).Response, s')

/-- Go `userHandler.DeleteUser`, with `id` and `tokenUser` as in `UpdateUser`. -/
def userHandler.DeleteUser {σ : Type} (service : IUserService σ) (s : σ)
    (id tokenUser : String) : (Nat × Body String) × σ :=
  if id = "" then
    (((NewResponse).Error fiber.StatusBadRequest id "id is required").Response, s)
  else if tokenUser ≠ id then
    (((NewResponse).Error fiber.StatusUnauthorized id "Unauthorized").Response, s)
  else
    match service.DeleteUser s id with
    | (.error err, s') =>
      if err = .ErrUserNotFound then
        (((NewResponse).Error fiber.StatusNotFound id
          "The user you are trying to delete was not found.").Response, s')
      else if err = .ErrDeleteFailed then
        (((NewResponse).Error fiber.StatusInternalServerError id
          "Failed to delete user due to an internal error.").Response, s')
      else
        (((NewResponse).Error fiber.StatusInternalServerError id
          "An unexpected error occurred while deleting the user.").Response, s')
    | (.ok (), s') =>
      (((NewResponse).Success fiber.StatusOK
        (some ("User with id " ++ id ++ " deleted successfully"))).Response, s')

end users

/-! ## `internal/middleware/token.go` -/

namespace middleware

open response

/-- The value of the Authorization header, by what it decodes to: the string
`s`, or "Bearer " followed by a token string of three segments. The part of
a `text` header after "Bearer " is a token string that is not of that shape. -/
inductive AuthorizationHeader
  | text (s : String)
  | bearer (alg : Option String) (claims : jwt.MapClaims) (signature : jwt.Signature)
  deriving DecidableEq, Repr

/-- What the handler returned by `ValidateToken` does with a request. -/
inductive Outcome
  /-- the response it sends, without calling the next handler -/
  | respond (sent : Nat × Body Unit)
  /-- the string is stored under "userId" and the next handler is called -/
  | next (userId : String)
  /-- the type assertion on the "sub" claim fails: a run-time panic -/
  | panic
  deriving DecidableEq, Repr

/-- The part of the handler from the call of the authenticator on. The claims
of a `jwt.Token` are `jwt.MapClaims` here, so the assertion on their type
holds. -/
def validate (jwtAuth : auth.IAuthenticator) (token : jwt.TokenString) (now : Time) : Outcome :=
  match jwtAuth.ValidateToken token now with
  | .error _ => .respond ((NewResponse).Error fiber.StatusUnauthorized "" "Invalid token").Response
  | .ok jwtToken =>
    match jwtToken.Claims.lookup "sub" with
    | some (.str userId) => .next userId
    | _ => .panic

/-- Go `middleware.ValidateToken`: the handler it returns, on a request with
the given Authorization header, at time `now`. -/
def ValidateToken (jwtAuth : auth.IAuthenticator) (authHeader : AuthorizationHeader)
    (now : Time) : Outcome :=
  match authHeader with
  | .text s =>
    if s = "" then
      .respond ((NewResponse).Error fiber.StatusUnauthorized "" "Unauthorized").Response
    else if ¬ "Bearer ".data.isPrefixOf s.data then
      .respond ((NewResponse).Error fiber.StatusUnauthorized "" "Invalid token format").Response
    else
      let token : String := ⟨s.data.drop 7⟩
      if token = "" then
        .respond ((NewResponse).Error fiber.StatusUnauthorized "" "Missing token").Response
      else validate jwtAuth (.malformed token) now
  | .bearer alg claims signature => validate jwtAuth (.compact alg claims signature) now

end middleware

/-! ## Example values -/

namespace Example

/-- An authenticator with a lifetime of one hour. -/
def authenticator : auth.JWTAuthenticator :=
  { secret := "k", audience := "app", issuer := "app", expiresAt := 3600000000000 }

/-- An authenticator with a lifetime of half a second. -/
def shortLived : auth.JWTAuthenticator :=
  { secret := "k", audience := "app", issuer := "app", expiresAt := 500000000 }

/-- An authenticator configured with an empty issuer. -/
def lenient : auth.JWTAuthenticator :=
  { secret := "k", audience := "app", issuer := "", expiresAt := 3600000000000 }

/-- An authenticator with a lifetime of zero. -/
def zeroLifetime : auth.JWTAuthenticator :=
  { secret := "k", audience := "app", issuer := "app", expiresAt := 0 }

/-- An instant 0.2 s after a full second. -/
def instant : Time := 1700000000200000000

/-- An address format test that accepts the address used below. -/
def isEmail (s : String) : Bool := decide (s = "ada@x.io")

/-- The hash of the password "secret1" under an empty salt. -/
def hashOfSecret1 : String :=
  bcrypt.encodeHash bcrypt.DefaultCost [] (bcrypt.keyStream (bytes "secret1"))

def ada : mongo.Document :=
  { _id := 1, name := "Ada", email := "ada@x.io", password := hashOfSecret1,
    created_at := 1700000000000, updated_at := 1700000000000, updatedAt := none }

def bob : mongo.Document :=
  { _id := 2, name := "Bob", email := "bob@x.io", password := hashOfSecret1,
    created_at := 1700000000000, updated_at := 1700000000000, updatedAt := none }

/-- A stored account whose email is the empty string. -/
def blank : mongo.Document :=
  { _id := 2, name := "Eve", email := "", password := hashOfSecret1,
    created_at := 1700000000000, updated_at := 1700000000000, updatedAt := none }

/-- A stored account whose identifier is the all-zero ObjectID. -/
def zero : mongo.Document :=
  { _id := 0, name := "Zed", email := "zed@x.io", password := hashOfSecret1,
    created_at := 1700000000000, updated_at := 1700000000000, updatedAt := none }

/-- A backend that is unreachable: every operation fails. -/
def unreachable : MongoCollection Unit where
  Find := fun _ _ => .error (.other "connection reset")
  FindOne := fun _ _ => .error (.other "connection reset")
  InsertOne := fun s _ _ => (.error (.other "connection reset"), s)
  FindOneAndUpdate := fun s _ _ => (.error (.other "connection reset"), s)
  DeleteOne := fun s _ => (.error (.other "connection reset"), s)
  CountDocuments := fun _ _ => .error (.other "connection reset")

/-- A backend whose lookups find no document and whose writes fail. -/
def readOnly : MongoCollection Unit where
  Find := fun _ _ => .ok []
  FindOne := fun _ _ => .error .ErrNoDocuments
  InsertOne := fun s _ _ => (.error (.other "not primary"), s)
  FindOneAndUpdate := fun s _ _ => (.error (.other "not primary"), s)
  DeleteOne := fun s _ => (.error (.other "not primary"), s)
  CountDocuments := fun _ _ => .ok 0

/-- The service over the in-memory store and `authenticator`. -/
def service : users.IUserService mongo.Collection :=
  users.NewUserService (users.NewUserRepositoryWithCollection mongo.memory)
    authenticator.toIAuthenticator

/-- An authenticator whose signer fails; the rest is `authenticator`. -/
def brokenSigner : auth.IAuthenticator where
  GenerateToken := fun _ => .error (.other "key is of invalid type")
  ValidateToken := authenticator.ValidateToken
  GenerateClaims := authenticator.GenerateClaims

/-- A password of 25 code points and 75 bytes. -/
def longPassword : String := ⟨List.replicate 25 '€'⟩

/-- Claims with the expiry, issuer and audience that `authenticator` asks
for, and no "sub". -/
def claimsWithoutSub : jwt.MapClaims :=
  [("exp", .num 1700003600), ("iss", .str "app"), ("aud", .str "app")]

/-- Claims as above whose "sub" is a number. -/
def claimsWithNumericSub : jwt.MapClaims :=
  [("sub", .num 7), ("exp", .num 1700003600), ("iss", .str "app"), ("aud", .str "app")]

end Example

/-! ## The invariant of the write path -/

namespace users

/-- Identifiers are unique, and documents that share a non-empty email are
the same document. -/
def StoreInv (s : Collection) : Prop :=
  (s.map (fun d => d._id)).Nodup ∧
  ∀ d₁ ∈ s, ∀ d₂ ∈ s, d₁.email = d₂.email → d₁.email ≠ "" → d₁._id = d₂._id

end users

/-! # Theorems -/

/-! ## Lemmas: the hasher -/

namespace bcrypt

theorem keyStream_length (p : List Nat) : (keyStream p).length = 72 := by
  simp [keyStream]

theorem hashHeader_default : hashHeader DefaultCost = ['$', '2', 'a', '$', '1', '0', '$'] := by
  decide

theorem wellFormed_header_append (rest : List Char) (h : 72 ≤ rest.length) :
    wellFormed (['$', '2', 'a', '$', '1', '0', '$'] ++ rest) = true := by
  have h1 : (['$', '2', 'a', '$', '1', '0', '$'] ++ rest).take 4 = ['$', '2', 'a', '$'] := rfl
  have h2 : ((['$', '2', 'a', '$', '1', '0', '$'] ++ rest).drop 4).take 2 = ['1', '0'] := rfl
  have h3 : ((['$', '2', 'a', '$', '1', '0', '$'] ++ rest).drop 6).take 1 = ['$'] := rfl
  have h4 : (['$', '2', 'a', '$', '1', '0', '$'] ++ rest).drop 7 = rest := rfl
  unfold wellFormed
  rw [h1, h2, h3, h4]
  have h5 : (['1', '0'].all Char.isDigit) = true := by decide
  have h6 : (['1', '0'] : List Char).foldl (fun n c => 10 * n + (c.toNat - 48)) 0 = 10 := by
    decide
  rw [h5, h6]
  simp [MinCost, MaxCost, h]

/-- Verifying a password against its own hash succeeds. -/
theorem compare_generate (password : String) (salt : List Nat) (h : len password ≤ 72) :
    ∃ hashed, GenerateFromPassword password DefaultCost salt = .ok hashed ∧
      CompareHashAndPassword hashed password = .ok () := by
  refine ⟨encodeHash DefaultCost salt (keyStream (bytes password)), ?_, ?_⟩
  · unfold GenerateFromPassword
    rw [if_neg (by omega)]
    simp [MinCost, MaxCost, DefaultCost]
  · unfold CompareHashAndPassword encodeHash
    simp only [hashHeader_default]
    have hlen : 72 ≤ ((salt ++ keyStream (bytes password)).map Char.ofNat).length := by
      simp [keyStream_length]
    rw [wellFormed_header_append _ hlen]
    have h4 : ∀ rest : List Char, (['$', '2', 'a', '$', '1', '0', '$'] ++ rest).drop 7 = rest :=
      fun _ => rfl
    simp only [if_true, h4]
    have hd : ((salt ++ keyStream (bytes password)).map Char.ofNat).drop
        (((salt ++ keyStream (bytes password)).map Char.ofNat).length - 72) =
        (keyStream (bytes password)).map Char.ofNat := by
      rw [List.map_append, List.length_append, List.length_map, List.length_map,
        keyStream_length, Nat.add_sub_cancel, List.drop_left' (by simp)]
    rw [hd]
    simp

end bcrypt

/-! ## Lemmas: the repository on the in-memory store -/

namespace users

theorem uniquenessFilter_isMatch_email {e : String} {ex : List ObjectID} {d : Document}
    (h : (userRepository.uniquenessFilter e ex).isMatch d = true) : d.email = e := by
  unfold userRepository.uniquenessFilter at h
  split at h
  · split at h <;> simp [Filter.isMatch] at h <;> simp [h]
  · simpa [Filter.isMatch] using h

theorem checkEmailUniqueness_memory (s : Collection) (e : String) (ex : List ObjectID) :
    userRepository.checkEmailUniqueness memory s e ex =
      if e ≠ "" ∧ s.any (userRepository.uniquenessFilter e ex).isMatch = true
      then .error .ErrEmailAlreadyExists else .ok () := by
  unfold userRepository.checkEmailUniqueness
  simp only [memory]
  cases h : s.find? (userRepository.uniquenessFilter e ex).isMatch with
  | none =>
    have hn : s.any (userRepository.uniquenessFilter e ex).isMatch = false := by
      rw [List.any_eq_false]
      exact List.find?_eq_none.mp h
    simp [hn]
  | some d =>
    have hm := List.find?_some h
    have hmem := List.mem_of_find?_eq_some h
    have he := uniquenessFilter_isMatch_email hm
    have ha : s.any (userRepository.uniquenessFilter e ex).isMatch = true :=
      List.any_eq_true.mpr ⟨d, hmem, hm⟩
    simp [ha, decodeUser, he]

/-- The result of `CreateUser` on the in-memory store, by cases. -/
theorem CreateUser_memory (s : Collection) (r : CreateUserRequest) (g : ObjectID)
    (t₁ t₂ : Time) :
    userRepository.CreateUser memory s r g t₁ t₂ =
      if r.Email ≠ "" ∧ s.any (fun d => decide (d.email = r.Email)) = true then
        (.error .ErrEmailAlreadyExists, s)
      else if s.any (fun d => decide (d._id = g)) = true then (.error .ErrInsertFailed, s)
      else
        (.ok { ID := g, Name := r.Name, Email := r.Email, Password := r.Password,
               CreatedAt := t₁, UpdatedAt := t₂ },
         s ++ [{ _id := g, name := r.Name, email := r.Email, password := r.Password,
                 created_at := DateTime.ofTime t₁, updated_at := DateTime.ofTime t₂,
                 updatedAt := none }]) := by
  unfold userRepository.CreateUser
  rw [checkEmailUniqueness_memory]
  have hf : (userRepository.uniquenessFilter r.Email []).isMatch =
      fun d => decide (d.email = r.Email) := by
    funext d; simp [userRepository.uniquenessFilter, Filter.isMatch]
  rw [hf]
  by_cases h : r.Email ≠ "" ∧ s.any (fun d => decide (d.email = r.Email)) = true
  · rw [if_pos h, if_pos h]
  · rw [if_neg h, if_neg h]
    have hz : NilObjectID.IsZero = true := by decide
    by_cases hg : s.any (fun d => decide (d._id = g)) = true
    · rw [if_pos hg]
      simp only [memory, encodeUser, hz, if_true, hg]
    · rw [if_neg hg]
      simp only [memory, encodeUser, hz, if_true, hg, Bool.false_eq_true, if_false]

theorem map_id_updateFirst (f : Filter) (u : UpdateSet) (s : Collection) :
    (updateFirst f u s).map (fun d => d._id) = s.map (fun d => d._id) := by
  induction s with
  | nil => rfl
  | cons d ds ih =>
    unfold updateFirst
    split
    · simp [UpdateSet.apply]
    · simp [ih]

theorem mem_updateFirst_byID (oid : ObjectID) (u : UpdateSet) (s : Collection)
    (hnd : (s.map (fun d => d._id)).Nodup) (d' : Document)
    (h : d' ∈ updateFirst (.byID oid) u s) :
    (d' ∈ s ∧ d'._id ≠ oid) ∨ (d'._id = oid ∧ d'.email = u.email) := by
  induction s with
  | nil => simp [updateFirst] at h
  | cons d ds ih =>
    rw [List.map_cons, List.nodup_cons] at hnd
    unfold updateFirst at h
    split at h
    · rename_i hm
      simp [Filter.isMatch] at hm
      rcases List.mem_cons.mp h with h | h
      · right; subst h; simp [UpdateSet.apply, hm]
      · left
        refine ⟨List.mem_cons_of_mem _ h, ?_⟩
        intro hd'
        apply hnd.1
        rw [hm, ← hd']
        exact List.mem_map_of_mem _ h
    · rename_i hm
      simp [Filter.isMatch] at hm
      rcases List.mem_cons.mp h with h | h
      · left; subst h; exact ⟨List.mem_cons_self _ _, hm⟩
      · rcases ih hnd.2 h with ⟨h1, h2⟩ | h'
        · left; exact ⟨List.mem_cons_of_mem _ h1, h2⟩
        · right; exact h'

theorem deleteFirst_sublist (f : Filter) (s : Collection) : (deleteFirst f s).Sublist s := by
  induction s with
  | nil => exact List.Sublist.refl _
  | cons d ds ih =>
    unfold deleteFirst
    split
    · exact List.sublist_cons_self _ _
    · exact List.Sublist.cons₂ _ ih

theorem StoreInv_of_sublist {s s' : Collection} (h : s'.Sublist s) (hs : StoreInv s) :
    StoreInv s' :=
  ⟨(h.map _).nodup hs.1, fun d₁ h₁ d₂ h₂ => hs.2 d₁ (h.subset h₁) d₂ (h.subset h₂)⟩

theorem StoreInv_create (s : Collection) (r : CreateUserRequest) (g : ObjectID) (t₁ t₂ : Time)
    (hs : StoreInv s) : StoreInv (userRepository.CreateUser memory s r g t₁ t₂).2 := by
  rw [CreateUser_memory]
  split
  · exact hs
  · rename_i hconf
    split
    · exact hs
    · rename_i hdup
      have hfresh : ∀ d ∈ s, d._id ≠ g := by
        intro d hd hg
        exact hdup (List.any_eq_true.mpr ⟨d, hd, by simpa using hg⟩)
      have hnone : r.Email ≠ "" → ∀ d ∈ s, d.email ≠ r.Email := by
        intro hne d hd he
        exact hconf ⟨hne, List.any_eq_true.mpr ⟨d, hd, by simpa using he⟩⟩
      refine ⟨?_, ?_⟩
      · simp only [List.map_append, List.map_cons, List.map_nil]
        rw [List.nodup_append]
        refine ⟨hs.1, List.nodup_singleton _, ?_⟩
        intro a ha hb
        simp only [List.mem_singleton] at hb
        obtain ⟨d, hd, rfl⟩ := List.mem_map.mp ha
        exact hfresh d hd hb
      · intro d₁ h₁ d₂ h₂ he hne
        simp only [List.mem_append, List.mem_singleton] at h₁ h₂
        rcases h₁ with h₁ | h₁ <;> rcases h₂ with h₂ | h₂
        · exact hs.2 d₁ h₁ d₂ h₂ he hne
        · have e₂ : d₂.email = r.Email := by rw [h₂]
          exact absurd (he.trans e₂) (hnone (by rw [← e₂, ← he]; exact hne) d₁ h₁)
        · have e₁ : d₁.email = r.Email := by rw [h₁]
          exact absurd (he.symm.trans e₁) (hnone (by rw [← e₁]; exact hne) d₂ h₂)
        · rw [h₁, h₂]

theorem StoreInv_update (s : Collection) (id : String) (r : UpdateUserRequest) (t : Time)
    (hs : StoreInv s) : StoreInv (userRepository.UpdateUser memory s id r t).2 := by
  unfold userRepository.UpdateUser
  cases hid : ObjectIDFromHex id with
  | none => exact hs
  | some oid =>
    simp only
    rw [checkEmailUniqueness_memory]
    by_cases hconf : r.Email ≠ "" ∧
        s.any (userRepository.uniquenessFilter r.Email [oid]).isMatch = true
    · rw [if_pos hconf]; exact hs
    · rw [if_neg hconf]
      simp only [memory]
      cases hf : s.find? (Filter.byID oid).isMatch with
      | none => simp only [↓reduceIte]; exact hs
      | some d =>
        simp only
        have hnone : r.Email ≠ "" → ∀ d ∈ s, d.email = r.Email → d._id = oid := by
          intro hne d hd he
          by_contra hdo
          apply hconf
          refine ⟨hne, List.any_eq_true.mpr ⟨d, hd, ?_⟩⟩
          unfold userRepository.uniquenessFilter
          by_cases hz : oid.IsZero = true
          · simp [hz, Filter.isMatch, he]
          · simp [hz, Filter.isMatch, he, hdo]
        refine ⟨by rw [map_id_updateFirst]; exact hs.1, ?_⟩
        intro d₁ h₁ d₂ h₂ he hne
        rcases mem_updateFirst_byID oid _ s hs.1 d₁ h₁ with ⟨m₁, n₁⟩ | ⟨i₁, e₁⟩ <;>
          rcases mem_updateFirst_byID oid _ s hs.1 d₂ h₂ with ⟨m₂, n₂⟩ | ⟨i₂, e₂⟩
        · exact hs.2 d₁ m₁ d₂ m₂ he hne
        · simp only at e₂
          exact absurd (hnone (by rw [← e₂, ← he]; exact hne) d₁ m₁ (by rw [he, e₂])) n₁
        · simp only at e₁
          exact absurd (hnone (by rw [← e₁]; exact hne) d₂ m₂ (by rw [← he, e₁])) n₂
        · rw [i₁, i₂]

theorem StoreInv_delete (s : Collection) (id : String) (hs : StoreInv s) :
    StoreInv (userRepository.DeleteUser memory s id).2 := by
  unfold userRepository.DeleteUser
  cases hid : ObjectIDFromHex id with
  | none => exact hs
  | some oid =>
    simp only [memory]
    cases hf : s.find? (Filter.byID oid).isMatch with
    | none => simpa using hs
    | some d =>
      simp only [one_ne_zero, ↓reduceIte]
      exact StoreInv_of_sublist (deleteFirst_sublist _ _) hs

theorem StoreInv_runCalls (calls : List WriteCall) (s : Collection) (hs : StoreInv s) :
    StoreInv (runCalls s calls) := by
  induction calls generalizing s with
  | nil => exact hs
  | cons c cs ih =>
    unfold runCalls
    rw [List.foldl_cons]
    apply ih
    cases c with
    | create r g t₁ t₂ => exact StoreInv_create s r g t₁ t₂ hs
    | update id r t => exact StoreInv_update s id r t hs
    | delete id => exact StoreInv_delete s id hs

end users

/-! ## Lemmas: the authenticator -/

namespace auth

theorem lookup_exp (a : JWTAuthenticator) (id : ObjectID) (n₁ n₂ n₃ : Time) :
    (a.GenerateClaims id n₁ n₂ n₃).lookup "exp" = some (.num (Time.Unix (n₁ + a.expiresAt))) := by
  simp [JWTAuthenticator.GenerateClaims, List.lookup]

theorem lookup_nbf (a : JWTAuthenticator) (id : ObjectID) (n₁ n₂ n₃ : Time) :
    (a.GenerateClaims id n₁ n₂ n₃).lookup "nbf" = some (.num (Time.Unix n₃)) := by
  simp [JWTAuthenticator.GenerateClaims, List.lookup]

theorem lookup_aud (a : JWTAuthenticator) (id : ObjectID) (n₁ n₂ n₃ : Time) :
    (a.GenerateClaims id n₁ n₂ n₃).lookup "aud" = some (.str a.audience) := by
  simp [JWTAuthenticator.GenerateClaims, List.lookup]

theorem lookup_iss (a : JWTAuthenticator) (id : ObjectID) (n₁ n₂ n₃ : Time) :
    (a.GenerateClaims id n₁ n₂ n₃).lookup "iss" = some (.str a.issuer) := by
  simp [JWTAuthenticator.GenerateClaims, List.lookup]

theorem lookup_sub (a : JWTAuthenticator) (id : ObjectID) (n₁ n₂ n₃ : Time) :
    (a.GenerateClaims id n₁ n₂ n₃).lookup "sub" = some (.str id.Hex) := by
  simp [JWTAuthenticator.GenerateClaims, List.lookup]

/-- The claims of `GenerateClaims` pass the audience and issuer checks of the
authenticator that generated them. -/
theorem verify_aud_iss (a : JWTAuthenticator) (id : ObjectID) (n₁ n₂ n₃ : Time) :
    (if a.audience ≠ "" then
        (jwt.Validator.verifyAudience (a.GenerateClaims id n₁ n₂ n₃) a.audience true).toList
      else []) = [] ∧
    (if a.issuer ≠ "" then
        (jwt.Validator.verifyIssuer (a.GenerateClaims id n₁ n₂ n₃) a.issuer true).toList
      else []) = [] := by
  constructor
  · by_cases h : a.audience = ""
    · simp [h]
    · have hj : String.join [a.audience] = a.audience := by
        simp [String.join]
      simp [h, jwt.Validator.verifyAudience, jwt.MapClaims.parseClaimsString, lookup_aud, hj,
        jwt.errorIfFalse]
  · by_cases h : a.issuer = ""
    · simp [h]
    · simp [h, jwt.Validator.verifyIssuer, jwt.MapClaims.parseString, lookup_iss,
        jwt.errorIfFalse]

/-- The result of `ValidateToken` on an HS256 token signed with the secret of the
authenticator, when claim validation finds nothing: the token is returned. -/
theorem ValidateToken_signed_ok (a : JWTAuthenticator) (claims : jwt.MapClaims) (now : Time)
    (hv : jwt.Validator.Validate
      { requireExp := true, expectedAud := a.audience, expectedIss := a.issuer } claims now = []) :
    a.ValidateToken (.compact (some "HS256") claims (.hs256 (hmac.keyBlock (bytes a.secret)))) now =
      .ok { Raw := .compact (some "HS256") claims (.hs256 (hmac.keyBlock (bytes a.secret))),
            Method := "HS256", Claims := claims,
            Signature := .hs256 (hmac.keyBlock (bytes a.secret)), Valid := true } := by
  have hm : "HS256" ∈ jwt.signingMethods := by decide
  have hh : jwt.isHMAC "HS256" = true := by decide
  unfold JWTAuthenticator.ValidateToken jwt.Parse
  simp only [hm, not_true_eq_false, if_false, List.mem_singleton, hh, jwt.verifyHS256, hv]
  simp

/-- The result of `ValidateToken` on a token whose claims do not validate is an error,
whatever the earlier checks find. -/
theorem ValidateToken_invalid_claims (a : JWTAuthenticator) (t : jwt.TokenString)
    (claims : jwt.MapClaims) (alg : Option String) (sig : jwt.Signature) (now : Time)
    (ht : t = .compact alg claims sig)
    (hv : jwt.Validator.Validate
      { requireExp := true, expectedAud := a.audience, expectedIss := a.issuer } claims now ≠ []) :
    ∃ err, a.ValidateToken t now = .error err := by
  subst ht
  cases hvv : jwt.Validator.Validate
      { requireExp := true, expectedAud := a.audience, expectedIss := a.issuer } claims now with
  | nil => exact absurd hvv hv
  | cons x xs =>
    unfold JWTAuthenticator.ValidateToken jwt.Parse
    cases alg with
    | none => exact ⟨_, rfl⟩
    | some alg =>
      simp only [hvv]
      repeat' split
      all_goals exact ⟨_, rfl⟩

theorem unix_arith (n d : Int) (hd : 1000000000 ≤ d) (hn : 0 ≤ n) :
    (n + d) / 1000000000 ≠ 0 ∧ n < (n + d) / 1000000000 * 1000000000 ∧
      ¬ n < n / 1000000000 * 1000000000 := by
  refine ⟨by omega, by omega, by omega⟩

theorem unix_arith_late (n d now : Int) (h : n + d < now) :
    ¬ now < (n + d) / 1000000000 * 1000000000 := by
  omega

end auth

/-! ## Register and login -/

namespace users

open Example

/-- C1, as stated, fails: a password of 25 three-byte code points passes the
validators (it has 25 code points) but is 75 bytes long, and registering it
on an empty store fails in the hasher. -/
theorem register_long_password_fails :
    CreateUserRequest.valid Example.isEmail
        { Name := "Ada", Email := "ada@x.io", Password := "€€€€€€€€€€€€€€€€€€€€€€€€€" } = true ∧
      (∀ d ∈ ([] : Collection), d.email ≠ "ada@x.io") ∧
      (userService.CreateUser (NewUserRepositoryWithCollection memory)
          authenticator.toIAuthenticator []
          { Name := "Ada", Email := "ada@x.io", Password := "€€€€€€€€€€€€€€€€€€€€€€€€€" }
          [] 7 instant instant instant instant instant).1 = .error .ErrPasswordTooLong := by
  decide

/-- C1 (amended): for every request that the validators accept and whose
password is at most 72 bytes long, on every store state in which no account
has the email, and with a fresh generated identifier, `CreateUser` followed
by `Login` with the same email and password both succeed; the two
projections carry the same identifier and each carries a token that is not
the empty string. -/
theorem register_then_login (isEmail : String → Bool) (a : auth.JWTAuthenticator)
    (s : Collection) (userReq : CreateUserRequest) (salt : List Nat) (generated : ObjectID)
    (n₁ n₂ n₃ n₄ n₅ m₁ m₂ m₃ : Time)
    (_hvalid : userReq.valid isEmail = true)
    (hlen : len userReq.Password ≤ 72)
    (hnew : ∀ d ∈ s, d.email ≠ userReq.Email)
    (hfresh : ∀ d ∈ s, d._id ≠ generated) :
    ∃ r₁ r₂ s',
      userService.CreateUser (NewUserRepositoryWithCollection memory) a.toIAuthenticator s
        userReq salt generated n₁ n₂ n₃ n₄ n₅ = (.ok r₁, s') ∧
      userService.Login (NewUserRepositoryWithCollection memory) a.toIAuthenticator s'
        { Email := userReq.Email, Password := userReq.Password } m₁ m₂ m₃ = .ok r₂ ∧
      r₁.ID = r₂.ID ∧ r₁.Token ≠ .malformed "" ∧ r₂.Token ≠ .malformed "" := by
  obtain ⟨hashed, hgen, hcmp⟩ := bcrypt.compare_generate userReq.Password salt hlen
  have hemail : s.any (fun d => decide (d.email = userReq.Email)) = false := by
    rw [List.any_eq_false]; intro d hd; simpa using hnew d hd
  have hid : s.any (fun d => decide (d._id = generated)) = false := by
    rw [List.any_eq_false]; intro d hd; simpa using hfresh d hd
  have hfind : s.find? (Filter.byEmail userReq.Email).isMatch = none := by
    rw [List.find?_eq_none]; intro d hd; simpa [Filter.isMatch] using hnew d hd
  have hcreate : userService.CreateUser (NewUserRepositoryWithCollection memory)
      a.toIAuthenticator s userReq salt generated n₁ n₂ n₃ n₄ n₅ =
      (.ok ((⟨generated, userReq.Name, userReq.Email, hashed, n₁, n₂⟩ : User).ToResponseWithToken
          (.compact (some "HS256") (a.GenerateClaims generated n₃ n₄ n₅)
            (.hs256 (hmac.keyBlock (bytes a.secret))))),
       s ++ [{ _id := generated, name := userReq.Name, email := userReq.Email,
               password := hashed, created_at := DateTime.ofTime n₁,
               updated_at := DateTime.ofTime n₂, updatedAt := none }]) := by
    unfold userService.CreateUser
    simp only [hgen, NewUserRepositoryWithCollection, CreateUser_memory, hemail, hid,
      Bool.false_eq_true, and_false, if_false, auth.JWTAuthenticator.toIAuthenticator,
      auth.JWTAuthenticator.GenerateToken]
  refine ⟨_, (⟨generated, userReq.Name, userReq.Email, hashed,
      DateTime.toTime (DateTime.ofTime n₁), DateTime.toTime (DateTime.ofTime n₂)⟩ :
        User).ToResponseWithToken
        (.compact (some "HS256") (a.GenerateClaims generated m₁ m₂ m₃)
          (.hs256 (hmac.keyBlock (bytes a.secret)))), _, hcreate, ?_, ?_, ?_, ?_⟩
  · unfold userService.Login
    simp only [NewUserRepositoryWithCollection, userRepository.GetUserByEmail, memory,
      List.find?_append, hfind, Option.none_or]
    simp [Filter.isMatch, decodeUser, hcmp, auth.JWTAuthenticator.toIAuthenticator,
      auth.JWTAuthenticator.GenerateToken]
  · rfl
  · simp [User.ToResponseWithToken]
  · simp [User.ToResponseWithToken]

/-- The hypotheses of `register_then_login` hold for the request
"Ada", "ada@x.io", "secret1" on a store that holds another account. -/
theorem register_then_login_witness :
    CreateUserRequest.valid Example.isEmail
        { Name := "Ada", Email := "ada@x.io", Password := "secret1" } = true ∧
      len "secret1" ≤ 72 ∧
      (∀ d ∈ [bob], d.email ≠ "ada@x.io") ∧
      (∀ d ∈ [bob], d._id ≠ 7) ∧
      ∃ r₁ r₂ s',
        userService.CreateUser (NewUserRepositoryWithCollection memory)
          authenticator.toIAuthenticator [bob]
          { Name := "Ada", Email := "ada@x.io", Password := "secret1" }
          [] 7 instant instant instant instant instant = (.ok r₁, s') ∧
        userService.Login (NewUserRepositoryWithCollection memory)
          authenticator.toIAuthenticator s'
          { Email := "ada@x.io", Password := "secret1" } instant instant instant = .ok r₂ ∧
        r₁.ID = r₂.ID ∧ r₁.Token ≠ .malformed "" ∧ r₂.Token ≠ .malformed "" :=
  ⟨by decide, by decide, by decide, by decide,
    register_then_login Example.isEmail authenticator [bob]
      { Name := "Ada", Email := "ada@x.io", Password := "secret1" } [] 7
      instant instant instant instant instant instant instant instant
      (by decide) (by decide) (by decide) (by decide)⟩

/-- C2, as stated, fails: on a store holding one account, a login with an
unknown email and a login with the known email and a wrong password return
different errors, and the handler answers them with different statuses and
messages. -/
theorem login_unknown_email_differs :
    userService.Login (NewUserRepositoryWithCollection memory) authenticator.toIAuthenticator
        [ada] { Email := "bob@x.io", Password := "secret2" } instant instant instant ≠
      userService.Login (NewUserRepositoryWithCollection memory) authenticator.toIAuthenticator
        [ada] { Email := "ada@x.io", Password := "secret2" } instant instant instant ∧
    userHandler.Login service [ada] (.ok { Email := "bob@x.io", Password := "secret2" })
        instant instant instant ≠
      userHandler.Login service [ada] (.ok { Email := "ada@x.io", Password := "secret2" })
        instant instant instant := by
  decide

/-- C2 (amended): login tells the two cases apart. For every store state and
every password, a login with an email that belongs to no account returns
`ErrUserNotFound`, which the handler answers with status 404 and the message
"User not found."; a login with an existing email and a password that does
not match the stored hash returns `ErrInvalidCredentials`, which the handler
answers with status 401 and "Invalid email or password provided.". -/
theorem login_tells_unknown_email_from_wrong_password (a : auth.JWTAuthenticator)
    (s : Collection) (req₁ req₂ : LoginUserRequest) (u : User) (m₁ m₂ m₃ : Time)
    (h₁ : ∀ d ∈ s, d.email ≠ req₁.Email)
    (h₂ : userRepository.GetUserByEmail memory s req₂.Email = .ok u)
    (h₃ : bcrypt.CompareHashAndPassword u.Password req₂.Password =
      .error .ErrMismatchedHashAndPassword) :
    userService.Login (NewUserRepositoryWithCollection memory) a.toIAuthenticator s req₁
        m₁ m₂ m₃ = .error .ErrUserNotFound ∧
    userHandler.Login
        (NewUserService (NewUserRepositoryWithCollection memory) a.toIAuthenticator) s
        (.ok req₁) m₁ m₂ m₃ =
      (fiber.StatusNotFound, .error (some { TraceId := "", Message := "User not found." })) ∧
    userService.Login (NewUserRepositoryWithCollection memory) a.toIAuthenticator s req₂
        m₁ m₂ m₃ = .error .ErrInvalidCredentials ∧
    userHandler.Login
        (NewUserService (NewUserRepositoryWithCollection memory) a.toIAuthenticator) s
        (.ok req₂) m₁ m₂ m₃ =
      (fiber.StatusUnauthorized,
        .error (some { TraceId := "", Message := "Invalid email or password provided." })) := by
  have hfind : s.find? (Filter.byEmail req₁.Email).isMatch = none := by
    rw [List.find?_eq_none]; intro d hd; simpa [Filter.isMatch] using h₁ d hd
  have hl₁ : userService.Login (NewUserRepositoryWithCollection memory) a.toIAuthenticator s
      req₁ m₁ m₂ m₃ = .error .ErrUserNotFound := by
    unfold userService.Login
    simp [NewUserRepositoryWithCollection, userRepository.GetUserByEmail, memory, hfind]
  have hl₂ : userService.Login (NewUserRepositoryWithCollection memory) a.toIAuthenticator s
      req₂ m₁ m₂ m₃ = .error .ErrInvalidCredentials := by
    unfold userService.Login
    simp [NewUserRepositoryWithCollection, h₂, h₃]
  refine ⟨hl₁, ?_, hl₂, ?_⟩
  · unfold userHandler.Login
    simp only [NewUserService, hl₁]
    decide
  · unfold userHandler.Login
    simp only [NewUserService, hl₂]
    decide

/-- The hypotheses of `login_tells_unknown_email_from_wrong_password` hold on
a store with one account, for an unknown email and for a wrong password. -/
theorem login_tells_unknown_email_from_wrong_password_witness :
    (∀ d ∈ [ada], d.email ≠ "bob@x.io") ∧
    userRepository.GetUserByEmail memory [ada] "ada@x.io" = .ok (decodeUser ada) ∧
    bcrypt.CompareHashAndPassword (decodeUser ada).Password "secret2" =
      .error .ErrMismatchedHashAndPassword ∧
    userService.Login (NewUserRepositoryWithCollection memory) authenticator.toIAuthenticator
        [ada] { Email := "bob@x.io", Password := "secret2" } instant instant instant =
      .error .ErrUserNotFound ∧
    userService.Login (NewUserRepositoryWithCollection memory) authenticator.toIAuthenticator
        [ada] { Email := "ada@x.io", Password := "secret2" } instant instant instant =
      .error .ErrInvalidCredentials :=
  have h := login_tells_unknown_email_from_wrong_password authenticator [ada]
    { Email := "bob@x.io", Password := "secret2" } { Email := "ada@x.io", Password := "secret2" }
    (decodeUser ada) instant instant instant (by decide) (by decide) (by decide)
  ⟨by decide, by decide, by decide, h.1, h.2.2.1⟩

end users

/-! ## Email uniqueness on the write path -/

namespace users

open Example

/-- C3, as stated, fails: on the empty store, two `CreateUser` requests with
the same email, the empty string, both succeed, and two accounts with that
email exist afterwards. -/
theorem create_empty_email_twice :
    (userRepository.CreateUser memory
        (userRepository.CreateUser memory []
          { Name := "Eve", Email := "", Password := "h" } 1 instant instant).2
        { Name := "Eva", Email := "", Password := "h" } 2 instant instant).1 =
      .ok { ID := 2, Name := "Eva", Email := "", Password := "h",
            CreatedAt := instant, UpdatedAt := instant } ∧
    (userRepository.CreateUser memory
        (userRepository.CreateUser memory []
          { Name := "Eve", Email := "", Password := "h" } 1 instant instant).2
        { Name := "Eva", Email := "", Password := "h" } 2 instant instant).2.countP
      (fun d => decide (d.email = "")) = 2 := by
  decide

/-- C3 (amended): for every store state in which at most one account has the
email, and every two `CreateUser` requests with the identical, non-empty
email run one after the other (the identifier generated for the first being
fresh), the second returns `ErrEmailAlreadyExists` and leaves the store as
it was, and exactly one account with that email exists afterwards. -/
theorem second_create_conflicts (s : Collection) (r₁ r₂ : CreateUserRequest)
    (g₁ g₂ : ObjectID) (t₁ t₂ t₃ t₄ : Time)
    (he : r₁.Email = r₂.Email) (hne : r₁.Email ≠ "")
    (hcount : s.countP (fun d => decide (d.email = r₁.Email)) ≤ 1)
    (hfresh : ∀ d ∈ s, d._id ≠ g₁) :
    userRepository.CreateUser memory (userRepository.CreateUser memory s r₁ g₁ t₁ t₂).2
        r₂ g₂ t₃ t₄ =
      (.error .ErrEmailAlreadyExists, (userRepository.CreateUser memory s r₁ g₁ t₁ t₂).2) ∧
    (userRepository.CreateUser memory s r₁ g₁ t₁ t₂).2.countP
      (fun d => decide (d.email = r₁.Email)) = 1 := by
  have hg : s.any (fun d => decide (d._id = g₁)) = false := by
    rw [List.any_eq_false]; intro d hd; simpa using hfresh d hd
  rw [CreateUser_memory s r₁]
  by_cases h : s.any (fun d => decide (d.email = r₁.Email)) = true
  · simp only [h, hne, ne_eq, not_false_eq_true, and_self, if_true]
    refine ⟨?_, ?_⟩
    · rw [CreateUser_memory]; simp [← he, hne, h]
    · have hpos : 0 < s.countP (fun d => decide (d.email = r₁.Email)) := by
        rw [List.countP_pos_iff]
        obtain ⟨d, hd, hm⟩ := List.any_eq_true.mp h
        exact ⟨d, hd, hm⟩
      omega
  · simp only [Bool.not_eq_true] at h
    simp only [h, hg, and_false, if_false, Bool.false_eq_true]
    refine ⟨?_, ?_⟩
    · rw [CreateUser_memory]; simp [← he, hne]
    · have h0 : s.countP (fun d => decide (d.email = r₁.Email)) = 0 := by
        rw [List.countP_eq_zero]
        intro d hd
        have := List.any_eq_false.mp h d hd
        simpa using this
      simp [List.countP_append, h0]

/-- The hypotheses of `second_create_conflicts` hold for two requests with
the email "ada@x.io" on a store that holds another account. -/
theorem second_create_conflicts_witness :
    ("ada@x.io" : String) ≠ "" ∧
    [bob].countP (fun d => decide (d.email = "ada@x.io")) ≤ 1 ∧
    (∀ d ∈ [bob], d._id ≠ 7) ∧
    (userRepository.CreateUser memory
        (userRepository.CreateUser memory [bob]
          { Name := "Ada", Email := "ada@x.io", Password := "h" } 7 instant instant).2
        { Name := "Ada L.", Email := "ada@x.io", Password := "g" } 8 instant instant).1 =
      .error .ErrEmailAlreadyExists :=
  ⟨by decide, by decide, by decide,
    congrArg Prod.fst (second_create_conflicts [bob]
      { Name := "Ada", Email := "ada@x.io", Password := "h" }
      { Name := "Ada L.", Email := "ada@x.io", Password := "g" } 7 8
      instant instant instant instant rfl (by decide) (by decide) (by decide)).1⟩

/-- C4, as stated, fails: starting from the empty collection, two
`CreateUser` calls with the empty email leave two stored accounts with the
same email. -/
theorem empty_email_repeats :
    ¬ (runCalls []
        [.create { Name := "Eve", Email := "", Password := "h" } 1 instant instant,
         .create { Name := "Eva", Email := "", Password := "h" } 2 instant instant]).Pairwise
      (fun d₁ d₂ => d₁.email ≠ d₂.email) := by
  decide

/-- C4 (amended): starting from the empty collection, after any finite
sequence of `CreateUser`, `UpdateUser` and `DeleteUser` calls, each run to
completion before the next, no two stored accounts have the same non-empty
email. -/
theorem nonempty_emails_unique (calls : List WriteCall) :
    (runCalls [] calls).Pairwise (fun d₁ d₂ => d₁.email = d₂.email → d₁.email = "") := by
  have hinv : StoreInv (runCalls [] calls) :=
    StoreInv_runCalls calls [] ⟨List.nodup_nil, fun _ h => absurd h (List.not_mem_nil _)⟩
  have hp : (runCalls [] calls).Pairwise (fun d₁ d₂ => d₁._id ≠ d₂._id) :=
    (List.pairwise_map.mp hinv.1)
  refine hp.imp_of_mem ?_
  intro d₁ d₂ h₁ h₂ hne he
  by_contra hnz
  exact hne (hinv.2 d₁ h₁ d₂ h₂ he hnz)

/-- C5, as stated, fails: with two distinct stored accounts, the second of
which has the empty email, updating the first to the email of the second
succeeds and changes the stored document of the first. -/
theorem update_to_empty_email_succeeds :
    ada ∈ [ada, blank] ∧ blank ∈ [ada, blank] ∧ ada._id ≠ blank._id ∧
    userRepository.UpdateUser memory [ada, blank] "000000000000000000000001"
        { Name := "Ada", Email := blank.email } instant =
      (.ok { ID := 1, Name := "Ada", Email := "", Password := hashOfSecret1,
             CreatedAt := 1700000000000000000, UpdatedAt := 1700000000000000000 },
       [{ ada with email := "", updatedAt := some 1700000000200 }, blank]) := by
  decide

/-- C5 (amended): for every two stored accounts A and B with different
identifiers, where the email of B is not empty, `UpdateUser` with the
identifier of A and the email of B returns `ErrEmailAlreadyExists` without
issuing the find-and-update: the whole collection, and so the stored
document of A, is unchanged. -/
theorem update_to_taken_email_conflicts (s : Collection) (A B : Document) (id name : String)
    (now : Time) (_hA : A ∈ s) (hB : B ∈ s) (hAB : A._id ≠ B._id)
    (hid : ObjectIDFromHex id = some A._id) (hBe : B.email ≠ "") :
    userRepository.UpdateUser memory s id { Name := name, Email := B.email } now =
      (.error .ErrEmailAlreadyExists, s) := by
  have hany : s.any (userRepository.uniquenessFilter B.email [A._id]).isMatch = true := by
    refine List.any_eq_true.mpr ⟨B, hB, ?_⟩
    unfold userRepository.uniquenessFilter
    by_cases hz : A._id.IsZero = true
    · simp [hz, Filter.isMatch]
    · simp [hz, Filter.isMatch, Ne.symm hAB]
  unfold userRepository.UpdateUser
  simp only [hid, checkEmailUniqueness_memory]
  simp [hany, hBe]

/-- The hypotheses of `update_to_taken_email_conflicts` hold for the
accounts `ada` and `bob`. -/
theorem update_to_taken_email_conflicts_witness :
    ada ∈ [ada, bob] ∧ bob ∈ [ada, bob] ∧ ada._id ≠ bob._id ∧
    ObjectIDFromHex "000000000000000000000001" = some ada._id ∧ bob.email ≠ "" ∧
    userRepository.UpdateUser memory [ada, bob] "000000000000000000000001"
        { Name := "Ada", Email := bob.email } instant =
      (.error .ErrEmailAlreadyExists, [ada, bob]) :=
  ⟨by decide, by decide, by decide, by decide, by decide,
    update_to_taken_email_conflicts [ada, bob] ada bob "000000000000000000000001" "Ada" instant
      (by decide) (by decide) (by decide) (by decide) (by decide)⟩

/-- C6, as stated, fails: for the account whose identifier is the all-zero
ObjectID, an update that keeps its own email, which no other account has,
returns `ErrEmailAlreadyExists`. -/
theorem update_zero_id_conflicts_with_itself :
    ObjectIDFromHex "000000000000000000000000" = some zero._id ∧
    (∀ d ∈ [zero, ada], d.email = zero.email → d._id = zero._id) ∧
    userRepository.UpdateUser memory [zero, ada] "000000000000000000000000"
        { Name := "Zed", Email := zero.email } instant =
      (.error .ErrEmailAlreadyExists, [zero, ada]) := by
  decide

/-- C6 (amended): for every well-formed identifier other than the all-zero
ObjectID whose account already has email `e`, while no other account has
`e`, the uniqueness check that `UpdateUser` runs passes, and
`UpdateUser(id, name, e)` does not fail with `ErrEmailAlreadyExists`: it
returns the account, with that identifier and email. -/
theorem update_keeps_own_email (s : Collection) (id : String) (oid : ObjectID)
    (name e : String) (now : Time)
    (hid : ObjectIDFromHex id = some oid) (hnz : oid ≠ NilObjectID)
    (hex : ∃ d ∈ s, d._id = oid ∧ d.email = e)
    (huniq : ∀ d ∈ s, d.email = e → d._id = oid) :
    userRepository.checkEmailUniqueness memory s e [oid] = .ok () ∧
    (userRepository.UpdateUser memory s id { Name := name, Email := e } now).1 ≠
      .error .ErrEmailAlreadyExists ∧
    ∃ u, (userRepository.UpdateUser memory s id { Name := name, Email := e } now).1 = .ok u ∧
      u.ID = oid ∧ u.Email = e := by
  have hany : s.any (userRepository.uniquenessFilter e [oid]).isMatch = false := by
    rw [List.any_eq_false]
    intro d hd
    have hz : oid.IsZero = false := by simp [ObjectID.IsZero, hnz]
    simp only [userRepository.uniquenessFilter, hz, Filter.isMatch]
    simp
    intro he
    exact huniq d hd he
  have hcheck : userRepository.checkEmailUniqueness memory s e [oid] = .ok () := by
    rw [checkEmailUniqueness_memory]; simp [hany]
  have hok : ∃ u, (userRepository.UpdateUser memory s id { Name := name, Email := e } now).1 =
      .ok u ∧ u.ID = oid ∧ u.Email = e := by
    obtain ⟨d, hd, hdid, _⟩ := hex
    unfold userRepository.UpdateUser
    simp only [hid, hcheck]
    cases hf : s.find? (Filter.byID oid).isMatch with
    | none =>
      have := List.find?_eq_none.mp hf d hd
      simp [Filter.isMatch, hdid] at this
    | some d' =>
      have hm := List.find?_some hf
      simp [Filter.isMatch] at hm
      simp [memory, hf, decodeUser, UpdateSet.apply, hm]
  refine ⟨hcheck, ?_, hok⟩
  obtain ⟨u, hu, _⟩ := hok
  rw [hu]
  exact fun h => by cases h

/-- The hypotheses of `update_keeps_own_email` hold for the account `ada`
next to `bob`. -/
theorem update_keeps_own_email_witness :
    ObjectIDFromHex "000000000000000000000001" = some 1 ∧ (1 : ObjectID) ≠ NilObjectID ∧
    (∃ d ∈ [ada, bob], d._id = 1 ∧ d.email = "ada@x.io") ∧
    (∀ d ∈ [ada, bob], d.email = "ada@x.io" → d._id = 1) ∧
    (userRepository.UpdateUser memory [ada, bob] "000000000000000000000001"
        { Name := "Ada L.", Email := "ada@x.io" } instant).1 ≠ .error .ErrEmailAlreadyExists :=
  ⟨by decide, by decide, by decide, by decide,
    (update_keeps_own_email [ada, bob] "000000000000000000000001" 1 "Ada L." "ada@x.io" instant
      (by decide) (by decide) (by decide) (by decide)).2.1⟩

/-- C7, as stated, fails: on a store holding an account with the empty
email, the lookup for the empty email returns that document, and
`checkEmailUniqueness` returns nil instead of `ErrEmailAlreadyExists`. -/
theorem checkEmailUniqueness_empty_email_match :
    memory.FindOne [blank] (userRepository.uniquenessFilter "" []) = .ok (decodeUser blank) ∧
    userRepository.checkEmailUniqueness memory [blank] "" [] = .ok () := by
  decide

/-- C7 (amended): for every backend, `checkEmailUniqueness` returns nil when
the lookup reports no document; returns `ErrEmailAlreadyExists` for every
lookup that returns a document whose decoded email is not empty; returns nil
for a returned document whose decoded email is empty; and returns the
backend error unchanged for every other lookup failure. -/
theorem checkEmailUniqueness_cases {σ : Type} (collection : MongoCollection σ) (s : σ)
    (email : String) (excludeID : List ObjectID) :
    (collection.FindOne s (userRepository.uniquenessFilter email excludeID) =
        .error .ErrNoDocuments →
      userRepository.checkEmailUniqueness collection s email excludeID = .ok ()) ∧
    (∀ u, collection.FindOne s (userRepository.uniquenessFilter email excludeID) = .ok u →
      u.Email ≠ "" →
      userRepository.checkEmailUniqueness collection s email excludeID =
        .error .ErrEmailAlreadyExists) ∧
    (∀ u, collection.FindOne s (userRepository.uniquenessFilter email excludeID) = .ok u →
      u.Email = "" →
      userRepository.checkEmailUniqueness collection s email excludeID = .ok ()) ∧
    (∀ err, collection.FindOne s (userRepository.uniquenessFilter email excludeID) =
        .error err →
      err ≠ .ErrNoDocuments →
      userRepository.checkEmailUniqueness collection s email excludeID = .error err) := by
  unfold userRepository.checkEmailUniqueness
  refine ⟨?_, ?_, ?_, ?_⟩
  · intro h; simp [h]
  · intro u h hu; simp [h, hu]
  · intro u h hu; simp [h, hu]
  · intro err h hne; simp [h, hne]

/-- The second case of `checkEmailUniqueness_cases` on a store holding `ada`:
the lookup for her email returns her document, and the check reports the
conflict. -/
theorem checkEmailUniqueness_cases_witness :
    memory.FindOne [ada] (userRepository.uniquenessFilter "ada@x.io" []) =
      .ok (decodeUser ada) ∧
    (decodeUser ada).Email ≠ "" ∧
    userRepository.checkEmailUniqueness memory [ada] "ada@x.io" [] =
      .error .ErrEmailAlreadyExists :=
  ⟨by decide, by decide,
    (checkEmailUniqueness_cases memory [ada] "ada@x.io" []).2.1 (decodeUser ada)
      (by decide) (by decide)⟩

end users

/-! ## Tokens -/

namespace auth

open Example

/-- C8, as stated, fails: with a lifetime of half a second, which is
positive, a token issued 0.2 s after a full second is already expired when
it is validated at the same instant, because `exp` is cut to whole seconds. -/
theorem subsecond_lifetime_token_expired :
    0 < shortLived.expiresAt ∧
    (shortLived.GenerateToken (shortLived.GenerateClaims 5 instant instant instant)).bind
        (fun t => shortLived.ValidateToken t instant) =
      .error (.ErrTokenInvalidClaims [.ErrTokenExpired]) := by
  decide

/-- C8 (amended): for every ObjectID and every authenticator whose lifetime
is at least one second, at every issuance instant not before the Unix epoch,
`ValidateToken(GenerateToken(GenerateClaims(id)))` evaluated at that instant
succeeds, and the claims of the returned token have "sub" equal to
`id.Hex()`. -/
theorem validate_fresh_token (a : JWTAuthenticator) (id : ObjectID) (now : Time)
    (hd : 1000000000 ≤ a.expiresAt) (hnow : 0 ≤ now) :
    ∃ t tok, a.GenerateToken (a.GenerateClaims id now now now) = .ok t ∧
      a.ValidateToken t now = .ok tok ∧ tok.Claims.lookup "sub" = some (.str id.Hex) := by
  obtain ⟨h0, h1, h2⟩ := unix_arith now a.expiresAt hd hnow
  have hexp : jwt.Validator.verifyExpiresAt (a.GenerateClaims id now now now) now true = none := by
    simp [jwt.Validator.verifyExpiresAt, jwt.MapClaims.parseNumericDate, lookup_exp, Time.Unix,
      h0, h1, jwt.errorIfFalse]
  have hnbf : jwt.Validator.verifyNotBefore (a.GenerateClaims id now now now) now false = none := by
    by_cases h3 : now / 1000000000 = 0
    · simp [jwt.Validator.verifyNotBefore, jwt.MapClaims.parseNumericDate, lookup_nbf, Time.Unix,
        h3, jwt.errorIfRequired]
    · simp [jwt.Validator.verifyNotBefore, jwt.MapClaims.parseNumericDate, lookup_nbf, Time.Unix,
        h3, h2, jwt.errorIfFalse]
  obtain ⟨haud, hiss⟩ := verify_aud_iss a id now now now
  have hv : jwt.Validator.Validate
      { requireExp := true, expectedAud := a.audience, expectedIss := a.issuer }
      (a.GenerateClaims id now now now) now = [] := by
    rw [jwt.Validator.Validate, hexp, hnbf, haud, hiss]; rfl
  exact ⟨_, _, rfl, ValidateToken_signed_ok a _ now hv, lookup_sub a id now now now⟩

/-- The hypotheses of `validate_fresh_token` hold for the one-hour
authenticator at `instant`. -/
theorem validate_fresh_token_witness :
    (1000000000 : Int) ≤ authenticator.expiresAt ∧ 0 ≤ instant ∧
    ∃ t tok, authenticator.GenerateToken (authenticator.GenerateClaims 5 instant instant instant) =
        .ok t ∧
      authenticator.ValidateToken t instant = .ok tok ∧
      tok.Claims.lookup "sub" = some (.str (ObjectID.Hex 5)) :=
  ⟨by decide, by decide, validate_fresh_token authenticator 5 instant (by decide) (by decide)⟩

/-- C9, as stated, fails: the secrets "k" and "k" followed by a zero byte are
different, but HMAC pads a short key with zero bytes, so a token generated
with the first is accepted by an authenticator configured with the second. -/
theorem padded_secret_accepted :
    authenticator.secret ≠ "k\x00" ∧
    ((authenticator.GenerateToken (authenticator.GenerateClaims 5 instant instant instant)).bind
        (fun t => ({ authenticator with secret := "k\x00" } : JWTAuthenticator).ValidateToken
          t instant)).toBool = true := by
  decide

/-- C9 (amended): for every token produced by `GenerateToken` with secret
`s`, `ValidateToken` on an authenticator whose secret makes a different HMAC
key block (the secret padded with zero bytes to 64 bytes, or its SHA-256
digest when it is longer) fails with a signature error; and `ValidateToken`
fails for every token whose header does not declare the algorithm HS256,
whatever its signature. -/
theorem validate_rejects_other_key_and_alg (a a' : JWTAuthenticator) (now : Time) :
    (∀ claims t, a.GenerateToken claims = .ok t →
      hmac.keyBlock (bytes a.secret) ≠ hmac.keyBlock (bytes a'.secret) →
      a'.ValidateToken t now = .error .ErrTokenSignatureInvalid) ∧
    (∀ alg claims signature, alg ≠ some "HS256" →
      ∃ err, a.ValidateToken (.compact alg claims signature) now = .error err) := by
  have hm : "HS256" ∈ jwt.signingMethods := by decide
  have hh : jwt.isHMAC "HS256" = true := by decide
  constructor
  · intro claims t ht hk
    have ht' : t = .compact (some "HS256") claims (.hs256 (hmac.keyBlock (bytes a.secret))) := by
      simpa [JWTAuthenticator.GenerateToken] using ht.symm
    subst ht'
    unfold JWTAuthenticator.ValidateToken jwt.Parse
    simp only [hm, not_true_eq_false, if_false, List.mem_singleton, hh, jwt.verifyHS256]
    simp [hk]
  · intro alg claims signature halg
    cases alg with
    | none => exact ⟨_, rfl⟩
    | some x =>
      have hx : ¬ x ∈ ["HS256"] := by
        simp only [List.mem_singleton]
        intro h
        exact halg (by rw [h])
      unfold JWTAuthenticator.ValidateToken jwt.Parse
      simp only [hx, not_false_eq_true, if_true]
      split <;> exact ⟨_, rfl⟩

/-- The hypotheses of `validate_rejects_other_key_and_alg` hold for the
secrets "k" and "j", and for the algorithm "none". -/
theorem validate_rejects_other_key_and_alg_witness :
    hmac.keyBlock (bytes authenticator.secret) ≠ hmac.keyBlock (bytes "j") ∧
    ({ authenticator with secret := "j" } : JWTAuthenticator).ValidateToken
        (.compact (some "HS256") (authenticator.GenerateClaims 5 instant instant instant)
          (.hs256 (hmac.keyBlock (bytes authenticator.secret)))) instant =
      .error .ErrTokenSignatureInvalid ∧
    (some "none" : Option String) ≠ some "HS256" ∧
    ∃ err, authenticator.ValidateToken
        (.compact (some "none") (authenticator.GenerateClaims 5 instant instant instant) .other)
        instant = .error err :=
  have h := validate_rejects_other_key_and_alg authenticator
    ({ authenticator with secret := "j" } : JWTAuthenticator) instant
  ⟨by decide, h.1 _ _ rfl (by decide), by decide, h.2 _ _ _ (by decide)⟩

/-- C10: for every token issued from `GenerateClaims` with configured
lifetime `d`, `ValidateToken` evaluated at any time later than the issuance
time plus `d` returns an error. -/
theorem validate_rejects_after_lifetime (a : JWTAuthenticator) (id : ObjectID)
    (n₁ n₂ n₃ now : Time) (hlate : n₁ + a.expiresAt < now) :
    ∃ t err, a.GenerateToken (a.GenerateClaims id n₁ n₂ n₃) = .ok t ∧
      a.ValidateToken t now = .error err := by
  obtain ⟨e, he⟩ : ∃ e, jwt.Validator.verifyExpiresAt (a.GenerateClaims id n₁ n₂ n₃) now true =
      some e := by
    by_cases h0 : (n₁ + a.expiresAt) / 1000000000 = 0
    · exact ⟨_, by simp [jwt.Validator.verifyExpiresAt, jwt.MapClaims.parseNumericDate, lookup_exp,
        Time.Unix, h0, jwt.errorIfRequired]; rfl⟩
    · have h1 := unix_arith_late n₁ a.expiresAt now hlate
      exact ⟨_, by simp [jwt.Validator.verifyExpiresAt, jwt.MapClaims.parseNumericDate, lookup_exp,
        Time.Unix, h0, h1, jwt.errorIfFalse]; rfl⟩
  have hv : jwt.Validator.Validate
      { requireExp := true, expectedAud := a.audience, expectedIss := a.issuer }
      (a.GenerateClaims id n₁ n₂ n₃) now ≠ [] := by
    simp [jwt.Validator.Validate, he]
  obtain ⟨err, herr⟩ := ValidateToken_invalid_claims a _ _ _ _ now rfl hv
  exact ⟨_, err, rfl, herr⟩

/-- The hypothesis of `validate_rejects_after_lifetime` holds one nanosecond
after the hour has passed. -/
theorem validate_rejects_after_lifetime_witness :
    instant + authenticator.expiresAt < instant + 3600000000001 ∧
    ∃ t err, authenticator.GenerateToken
        (authenticator.GenerateClaims 5 instant instant instant) = .ok t ∧
      authenticator.ValidateToken t (instant + 3600000000001) = .error err :=
  ⟨by decide, validate_rejects_after_lifetime authenticator 5 instant instant instant
    (instant + 3600000000001) (by decide)⟩

end auth

/-! ## Lemmas: identifiers in hexadecimal -/

namespace primitive

theorem fromHexChar_eq_none_iff (c : Char) : fromHexChar c = none ↔ isHexDigit c = false := by
  have h0 : '0'.toNat = 48 := by decide
  have h9 : '9'.toNat = 57 := by decide
  have ha : 'a'.toNat = 97 := by decide
  have hf : 'f'.toNat = 102 := by decide
  have hA : 'A'.toNat = 65 := by decide
  have hF : 'F'.toNat = 70 := by decide
  unfold fromHexChar isHexDigit
  rw [h0, h9, ha, hf, hA, hF]
  by_cases h1 : 48 ≤ c.toNat ∧ c.toNat ≤ 57
  · simp [h1]
  · by_cases h2 : 97 ≤ c.toNat ∧ c.toNat ≤ 102
    · simp [h1, h2]
    · by_cases h3 : 65 ≤ c.toNat ∧ c.toNat ≤ 70
      · simp [h1, h2, h3]
      · simp [h1, h2, h3]

theorem hexDecode_eq_none_iff (cs : List Char) (acc : Nat) :
    hexDecode acc cs = none ↔ cs.all isHexDigit = false := by
  induction cs generalizing acc with
  | nil => simp [hexDecode]
  | cons c cs ih =>
    unfold hexDecode
    cases hc : fromHexChar c with
    | none =>
      have := (fromHexChar_eq_none_iff c).mp hc
      simp [this]
    | some d =>
      have hd : isHexDigit c = true := by
        cases h : isHexDigit c with
        | true => rfl
        | false => rw [(fromHexChar_eq_none_iff c).mpr h] at hc; cases hc
      simp only [List.all_cons, hd, Bool.true_and]
      exact ih _

theorem isHexDigit_lt (c : Char) (h : isHexDigit c = true) : c.toNat < 128 := by
  have h9 : '9'.toNat = 57 := by decide
  have hf : 'f'.toNat = 102 := by decide
  have hF : 'F'.toNat = 70 := by decide
  unfold isHexDigit at h
  rw [h9, hf, hF] at h
  simp only [Bool.or_eq_true, decide_eq_true_eq] at h
  omega

theorem bytes_length_of_ascii (cs : List Char) (h : ∀ c ∈ cs, c.toNat < 128) :
    ((cs.map utf8EncodeRune).flatten).length = cs.length := by
  induction cs with
  | nil => rfl
  | cons c cs ih =>
    have hc := h c (List.mem_cons_self _ _)
    have ih' := ih (fun x hx => h x (List.mem_cons_of_mem _ hx))
    simp only [List.map_cons, List.flatten_cons, List.length_append, List.length_cons, ih']
    simp [utf8EncodeRune, hc]
    omega

/-- The strings that `ObjectIDFromHex` rejects are exactly those that are not
24 hexadecimal digits. -/
theorem ObjectIDFromHex_eq_none_iff (s : String) :
    ObjectIDFromHex s = none ↔ wellFormedHex s = false := by
  unfold ObjectIDFromHex wellFormedHex
  by_cases hall : s.data.all isHexDigit = true
  · have hlen : len s = s.data.length := by
      unfold len bytes
      apply bytes_length_of_ascii
      intro c hc
      exact isHexDigit_lt c (List.all_eq_true.mp hall c hc)
    have hdec : hexDecode 0 s.data ≠ none := by
      intro h
      rw [hexDecode_eq_none_iff] at h
      rw [h] at hall
      cases hall
    rw [hlen, hall]
    by_cases h24 : s.data.length = 24
    · simp only [h24, ne_eq, not_true_eq_false, if_false, decide_True, Bool.and_self]
      cases hd : hexDecode 0 s.data with
      | none => exact absurd hd hdec
      | some v => simp
    · simp only [ne_eq, h24, not_false_eq_true, if_true, decide_False, Bool.false_and]
  · simp only [Bool.not_eq_true] at hall
    have hdec : hexDecode 0 s.data = none := (hexDecode_eq_none_iff _ _).mpr hall
    rw [hdec, hall]
    simp

end primitive

/-! ## Lemmas: bytes of strings and key streams -/

theorem toNat_ofNat_of_lt (n : Nat) (h : n < 256) : (Char.ofNat n).toNat = n := by
  have hv : n.isValidChar := Or.inl (by omega)
  simp [Char.ofNat, hv, Char.ofNatAux, Char.toNat, UInt32.toNat]

theorem utf8EncodeRune_lt (c : Char) : ∀ b ∈ utf8EncodeRune c, b < 256 := by
  have hc : c.toNat < 1114112 := by
    have := c.valid
    simp only [UInt32.isValidChar, Nat.isValidChar] at this
    show c.val.toNat < 1114112
    omega
  intro b hb
  unfold utf8EncodeRune at hb
  simp only at hb
  split at hb
  · simp at hb; omega
  · split at hb
    · simp at hb; omega
    · split at hb
      · simp at hb; omega
      · simp at hb; omega

theorem bytes_lt (s : String) : ∀ b ∈ bytes s, b < 256 := by
  intro b hb
  unfold bytes at hb
  simp only [List.mem_flatten, List.mem_map] at hb
  obtain ⟨l, ⟨c, _, rfl⟩, hbl⟩ := hb
  exact utf8EncodeRune_lt c b hbl

namespace bcrypt

theorem keyStream_lt (p : List Nat) (hp : ∀ b ∈ p, b < 256) : ∀ b ∈ keyStream p, b < 256 := by
  intro b hb
  unfold keyStream at hb
  simp only [List.mem_map, List.mem_range] at hb
  obtain ⟨i, _, rfl⟩ := hb
  have hpos : 0 < (p ++ [0]).length := by simp
  have hi : i % (p ++ [0]).length < (p ++ [0]).length := Nat.mod_lt _ hpos
  rw [List.getD_eq_getElem _ _ hi]
  have hmem : (p ++ [0])[i % (p ++ [0]).length] ∈ p ++ [0] := List.getElem_mem _
  rcases List.mem_append.mp hmem with h | h
  · exact hp _ h
  · rw [List.mem_singleton] at h; rw [h]; omega

theorem map_ofNat_injective (l₁ l₂ : List Nat) (h₁ : ∀ b ∈ l₁, b < 256) (h₂ : ∀ b ∈ l₂, b < 256)
    (h : l₁.map Char.ofNat = l₂.map Char.ofNat) : l₁ = l₂ := by
  have h' := congrArg (List.map Char.toNat) h
  rw [List.map_map, List.map_map] at h'
  have e₁ : l₁.map (Char.toNat ∘ Char.ofNat) = l₁ := by
    conv_rhs => rw [← List.map_id l₁]
    apply List.map_congr_left
    intro b hb
    exact toNat_ofNat_of_lt b (h₁ b hb)
  have e₂ : l₂.map (Char.toNat ∘ Char.ofNat) = l₂ := by
    conv_rhs => rw [← List.map_id l₂]
    apply List.map_congr_left
    intro b hb
    exact toNat_ofNat_of_lt b (h₂ b hb)
  rw [e₁, e₂] at h'
  exact h'

end bcrypt

/-! ## Lemmas: claim validation, clock arithmetic, lookups by identifier -/

namespace bcrypt

/-- Comparing against a generated hash succeeds exactly for the passwords
with the key stream of the hashed one. -/
theorem compare_generated (p p' : String) (salt : List Nat) :
    CompareHashAndPassword
        (encodeHash DefaultCost salt (keyStream (bytes p))) p' =
      if keyStream (bytes p') = keyStream (bytes p) then .ok ()
      else .error .ErrMismatchedHashAndPassword := by
  unfold CompareHashAndPassword encodeHash
  simp only [hashHeader_default]
  have hlen : 72 ≤ ((salt ++ keyStream (bytes p)).map Char.ofNat).length := by
    simp [keyStream_length]
  rw [wellFormed_header_append _ hlen]
  have h4 : ∀ rest : List Char, (['$', '2', 'a', '$', '1', '0', '$'] ++ rest).drop 7 = rest :=
    fun _ => rfl
  simp only [if_true, h4]
  have hd : ((salt ++ keyStream (bytes p)).map Char.ofNat).drop
      (((salt ++ keyStream (bytes p)).map Char.ofNat).length - 72) =
      (keyStream (bytes p)).map Char.ofNat := by
    rw [List.map_append, List.length_append, List.length_map, List.length_map,
      keyStream_length, Nat.add_sub_cancel, List.drop_left' (by simp)]
  rw [hd]
  by_cases h : keyStream (bytes p') = keyStream (bytes p)
  · rw [if_pos h, h]; simp
  · rw [if_neg h, if_neg]
    intro hm
    exact h (map_ofNat_injective _ _ (keyStream_lt _ (bytes_lt p'))
      (keyStream_lt _ (bytes_lt p)) hm.symm)

theorem generate_eq_ok (p hashed : String) (salt : List Nat)
    (h : GenerateFromPassword p DefaultCost salt = .ok hashed) :
    hashed = encodeHash DefaultCost salt (keyStream (bytes p)) := by
  unfold GenerateFromPassword at h
  split at h
  · cases h
  · simp [MinCost, MaxCost, DefaultCost] at h
    simp [DefaultCost, h]

end bcrypt

namespace auth

/-- The result of `ValidateToken` on an HS256 token signed with the secret of the
authenticator, when claim validation finds errors. -/
theorem ValidateToken_signed_error (a : JWTAuthenticator) (claims : jwt.MapClaims) (now : Time)
    (hv : jwt.Validator.Validate
      { requireExp := true, expectedAud := a.audience, expectedIss := a.issuer } claims now ≠ []) :
    a.ValidateToken (.compact (some "HS256") claims (.hs256 (hmac.keyBlock (bytes a.secret)))) now =
      .error (.ErrTokenInvalidClaims (jwt.Validator.Validate
        { requireExp := true, expectedAud := a.audience, expectedIss := a.issuer } claims now)) := by
  have hm : "HS256" ∈ jwt.signingMethods := by decide
  have hh : jwt.isHMAC "HS256" = true := by decide
  cases hvv : jwt.Validator.Validate
      { requireExp := true, expectedAud := a.audience, expectedIss := a.issuer } claims now with
  | nil => exact absurd hvv hv
  | cons x xs =>
    unfold JWTAuthenticator.ValidateToken jwt.Parse
    simp only [hm, not_true_eq_false, if_false, List.mem_singleton, hh, jwt.verifyHS256, hvv]
    simp

theorem verifyIssuer_differs (claims : jwt.MapClaims) (cmp : String)
    (h : claims.parseString "iss" ≠ .ok cmp) :
    ∃ e, jwt.Validator.verifyIssuer claims cmp true = some e := by
  unfold jwt.Validator.verifyIssuer
  cases hp : claims.parseString "iss" with
  | error e => exact ⟨e, rfl⟩
  | ok iss =>
    simp only
    by_cases h0 : iss = ""
    · rw [if_pos h0]; exact ⟨_, rfl⟩
    · rw [if_neg h0]
      have : iss ≠ cmp := fun he => h (by rw [hp, he])
      exact ⟨_, by simp [jwt.errorIfFalse, this]; rfl⟩

theorem verifyAudience_missing (claims : jwt.MapClaims) (cmp : String)
    (h : ∀ l, claims.parseClaimsString "aud" = .ok l → cmp ∉ l) :
    ∃ e, jwt.Validator.verifyAudience claims cmp true = some e := by
  unfold jwt.Validator.verifyAudience
  cases hp : claims.parseClaimsString "aud" with
  | error e => exact ⟨e, rfl⟩
  | ok aud =>
    simp only
    by_cases h0 : aud.length = 0
    · rw [if_pos h0]; exact ⟨_, rfl⟩
    · rw [if_neg h0]
      by_cases h1 : String.join aud = ""
      · rw [if_pos h1]; exact ⟨_, rfl⟩
      · rw [if_neg h1]
        have hany : aud.any (fun a => decide (a = cmp)) = false := by
          rw [List.any_eq_false]
          intro x hx
          have := h aud hp
          simp only [decide_eq_true_eq]
          intro hxc
          exact this (hxc ▸ hx)
        exact ⟨_, by simp [jwt.errorIfFalse, hany]; rfl⟩

theorem lookup_iat (a : JWTAuthenticator) (id : ObjectID) (n₁ n₂ n₃ : Time) :
    (a.GenerateClaims id n₁ n₂ n₃).lookup "iat" = some (.num (Time.Unix n₂)) := by
  simp [JWTAuthenticator.GenerateClaims, List.lookup]

theorem unix_add_seconds (n k : Int) :
    (n + k * 1000000000) / 1000000000 = n / 1000000000 + k := by
  omega

end auth

namespace users

theorem find?_byID_of_mem (s : Collection) (d : Document) (hd : d ∈ s)
    (hnd : (s.map (fun d => d._id)).Nodup) :
    s.find? (Filter.byID d._id).isMatch = some d := by
  induction s with
  | nil => cases hd
  | cons x xs ih =>
    rw [List.map_cons, List.nodup_cons] at hnd
    rcases List.mem_cons.mp hd with h | h
    · subst h; simp [Filter.isMatch]
    · have hne : x._id ≠ d._id := by
        intro he
        exact hnd.1 (he ▸ List.mem_map_of_mem _ h)
      simp only [List.find?_cons, Filter.isMatch, hne, decide_False]
      exact ih h hnd.2

theorem find?_deleteFirst_same (oid : ObjectID) (s : Collection)
    (hnd : (s.map (fun d => d._id)).Nodup) :
    (deleteFirst (.byID oid) s).find? (Filter.byID oid).isMatch = none := by
  induction s with
  | nil => rfl
  | cons x xs ih =>
    rw [List.map_cons, List.nodup_cons] at hnd
    unfold deleteFirst
    by_cases hx : x._id = oid
    · simp only [Filter.isMatch, hx, decide_True, if_true]
      rw [List.find?_eq_none]
      intro y hy
      simp only [Filter.isMatch, decide_eq_true_eq]
      intro hyo
      exact hnd.1 (by rw [hx, ← hyo]; exact List.mem_map_of_mem _ hy)
    · simp only [Filter.isMatch, hx, decide_False, Bool.false_eq_true, if_false, List.find?_cons]
      exact ih hnd.2

theorem find?_deleteFirst_other (oid oid' : ObjectID) (hne : oid' ≠ oid) (s : Collection) :
    (deleteFirst (.byID oid) s).find? (Filter.byID oid').isMatch =
      s.find? (Filter.byID oid').isMatch := by
  induction s with
  | nil => rfl
  | cons x xs ih =>
    unfold deleteFirst
    by_cases hx : x._id = oid
    · have hx' : x._id ≠ oid' := fun h => hne (h.symm.trans hx)
      simp only [Filter.isMatch, hx, decide_True, if_true]
      have hdec : decide (x._id = oid') = false := by simp [hx']
      rw [List.find?_cons]
      simp only [Filter.isMatch, hdec]
    · simp only [Filter.isMatch, hx, decide_False, Bool.false_eq_true, if_false, List.find?_cons]
      rw [ih]

theorem epoch_ne_zero (n : Int) (h : 0 ≤ n) :
    n ≠ -62135596800 * 1000000000 ∧ n / 1000000 * 1000000 ≠ -62135596800 * 1000000000 := by
  constructor <;> omega

end users

/-! ## Claim validation and generated claims -/

namespace auth

open Example

/-- C11, as stated, fails: an authenticator configured with the empty issuer
accepts a correctly signed HS256 token whose "iss" is some other string,
because the issuer check is left out when no issuer is expected. -/
theorem empty_issuer_accepts_any_issuer :
    ("someone else" : String) ≠ lenient.issuer ∧
    (lenient.ValidateToken (.compact (some "HS256")
        [("sub", .str "000000000000000000000005"), ("exp", .num 1700003600),
         ("iss", .str "someone else"), ("aud", .str "app")]
        (.hs256 (hmac.keyBlock (bytes lenient.secret)))) instant).toBool = true := by
  decide

/-- C11 (amended): `ValidateToken` returns an error for every correctly
signed HS256 token whose claims lack "exp"; when the configured issuer is
not empty, for every such token whose "iss" is not the configured issuer;
and when the configured audience is not empty, for every such token whose
"aud" does not contain the configured audience. -/
theorem validate_rejects_bad_claims (a : JWTAuthenticator) (claims : jwt.MapClaims)
    (now : Time) :
    (claims.lookup "exp" = none →
      ∃ errs, a.ValidateToken
        (.compact (some "HS256") claims (.hs256 (hmac.keyBlock (bytes a.secret)))) now =
          .error (.ErrTokenInvalidClaims errs)) ∧
    (a.issuer ≠ "" → claims.parseString "iss" ≠ .ok a.issuer →
      ∃ errs, a.ValidateToken
        (.compact (some "HS256") claims (.hs256 (hmac.keyBlock (bytes a.secret)))) now =
          .error (.ErrTokenInvalidClaims errs)) ∧
    (a.audience ≠ "" → (∀ l, claims.parseClaimsString "aud" = .ok l → a.audience ∉ l) →
      ∃ errs, a.ValidateToken
        (.compact (some "HS256") claims (.hs256 (hmac.keyBlock (bytes a.secret)))) now =
          .error (.ErrTokenInvalidClaims errs)) := by
  refine ⟨?_, ?_, ?_⟩
  · intro h
    refine ⟨_, ValidateToken_signed_error a claims now ?_⟩
    simp [jwt.Validator.Validate, jwt.Validator.verifyExpiresAt, jwt.MapClaims.parseNumericDate, h,
      jwt.errorIfRequired]
  · intro hi h
    obtain ⟨e, he⟩ := verifyIssuer_differs claims a.issuer h
    refine ⟨_, ValidateToken_signed_error a claims now ?_⟩
    simp [jwt.Validator.Validate, hi, he]
  · intro ha h
    obtain ⟨e, he⟩ := verifyAudience_missing claims a.audience h
    refine ⟨_, ValidateToken_signed_error a claims now ?_⟩
    simp [jwt.Validator.Validate, ha, he]

/-- The three cases of `validate_rejects_bad_claims` for the one-hour
authenticator: a token without "exp", one with another issuer, one for
another audience. -/
theorem validate_rejects_bad_claims_witness :
    (([("sub", .str "x")] : jwt.MapClaims).lookup "exp" = none ∧
      ∃ errs, authenticator.ValidateToken
        (.compact (some "HS256") [("sub", .str "x")]
          (.hs256 (hmac.keyBlock (bytes authenticator.secret)))) instant =
          .error (.ErrTokenInvalidClaims errs)) ∧
    (authenticator.issuer ≠ "" ∧
      jwt.MapClaims.parseString [("exp", .num 1700003600), ("iss", .str "other")] "iss" ≠
        .ok authenticator.issuer ∧
      ∃ errs, authenticator.ValidateToken
        (.compact (some "HS256") [("exp", .num 1700003600), ("iss", .str "other")]
          (.hs256 (hmac.keyBlock (bytes authenticator.secret)))) instant =
          .error (.ErrTokenInvalidClaims errs)) ∧
    (authenticator.audience ≠ "" ∧
      ∃ errs, authenticator.ValidateToken
        (.compact (some "HS256") [("exp", .num 1700003600), ("aud", .strs ["web", "cli"])]
          (.hs256 (hmac.keyBlock (bytes authenticator.secret)))) instant =
          .error (.ErrTokenInvalidClaims errs)) :=
  ⟨⟨by decide,
      (validate_rejects_bad_claims authenticator [("sub", .str "x")] instant).1 (by decide)⟩,
    ⟨by decide, by decide,
      (validate_rejects_bad_claims authenticator
        [("exp", .num 1700003600), ("iss", .str "other")] instant).2.1 (by decide) (by decide)⟩,
    ⟨by decide,
      (validate_rejects_bad_claims authenticator
        [("exp", .num 1700003600), ("aud", .strs ["web", "cli"])] instant).2.2 (by decide)
        (by
          intro l hl
          have : l = ["web", "cli"] := by
            simpa [jwt.MapClaims.parseClaimsString, List.lookup] using hl.symm
          rw [this]
          decide)⟩⟩

/-- C12, as stated, fails. With a lifetime of zero, "exp" equals "iat"; and
with a lifetime of one hour, when the third clock reading falls in the next
second, "nbf" differs from "iat". -/
theorem generated_claims_zero_lifetime_or_late_reading :
    (zeroLifetime.GenerateClaims 5 instant instant instant).lookup "exp" =
      some (.num 1700000000) ∧
    (zeroLifetime.GenerateClaims 5 instant instant instant).lookup "iat" =
      some (.num 1700000000) ∧
    (authenticator.GenerateClaims 5 instant instant (instant + 900000000)).lookup "iat" =
      some (.num 1700000000) ∧
    (authenticator.GenerateClaims 5 instant instant (instant + 900000000)).lookup "nbf" =
      some (.num 1700000001) := by
  decide

/-- C12 (amended): for every authenticator whose lifetime is a whole number
`k ≥ 1` of seconds and every id, when the three clock readings of
`GenerateClaims` fall in the same second, the claims satisfy exp > iat with
exp - iat = k, nbf = iat, iss the configured issuer, aud the configured
audience and sub = `id.Hex()`. -/
theorem generated_claims_shape (a : JWTAuthenticator) (id : ObjectID) (n₁ n₂ n₃ : Time)
    (k : Int) (hk : a.expiresAt = k * 1000000000) (hpos : 1 ≤ k)
    (h₁₂ : Time.Unix n₁ = Time.Unix n₂) (h₂₃ : Time.Unix n₂ = Time.Unix n₃) :
    ∃ exp iat nbf,
      (a.GenerateClaims id n₁ n₂ n₃).lookup "exp" = some (.num exp) ∧
      (a.GenerateClaims id n₁ n₂ n₃).lookup "iat" = some (.num iat) ∧
      (a.GenerateClaims id n₁ n₂ n₃).lookup "nbf" = some (.num nbf) ∧
      exp > iat ∧ exp - iat = k ∧ nbf = iat ∧
      (a.GenerateClaims id n₁ n₂ n₃).lookup "iss" = some (.str a.issuer) ∧
      (a.GenerateClaims id n₁ n₂ n₃).lookup "aud" = some (.str a.audience) ∧
      (a.GenerateClaims id n₁ n₂ n₃).lookup "sub" = some (.str id.Hex) := by
  have he : Time.Unix (n₁ + a.expiresAt) = Time.Unix n₂ + k := by
    rw [hk, ← h₁₂]
    exact unix_add_seconds n₁ k
  refine ⟨_, _, _, lookup_exp a id n₁ n₂ n₃, lookup_iat a id n₁ n₂ n₃, lookup_nbf a id n₁ n₂ n₃,
    ?_, ?_, h₂₃.symm, lookup_iss a id n₁ n₂ n₃, lookup_aud a id n₁ n₂ n₃, lookup_sub a id n₁ n₂ n₃⟩
  · rw [he]; omega
  · rw [he]; omega

/-- The hypotheses of `generated_claims_shape` hold for the one-hour
authenticator with three readings within one second. -/
theorem generated_claims_shape_witness :
    authenticator.expiresAt = 3600 * 1000000000 ∧ (1 : Int) ≤ 3600 ∧
    Time.Unix instant = Time.Unix (instant + 1000) ∧
    Time.Unix (instant + 1000) = Time.Unix (instant + 2000) ∧
    ∃ exp iat nbf,
      (authenticator.GenerateClaims 5 instant (instant + 1000) (instant + 2000)).lookup "exp" =
        some (.num exp) ∧
      (authenticator.GenerateClaims 5 instant (instant + 1000) (instant + 2000)).lookup "iat" =
        some (.num iat) ∧
      (authenticator.GenerateClaims 5 instant (instant + 1000) (instant + 2000)).lookup "nbf" =
        some (.num nbf) ∧
      exp > iat ∧ exp - iat = 3600 ∧ nbf = iat ∧
      (authenticator.GenerateClaims 5 instant (instant + 1000) (instant + 2000)).lookup "iss" =
        some (.str authenticator.issuer) ∧
      (authenticator.GenerateClaims 5 instant (instant + 1000) (instant + 2000)).lookup "aud" =
        some (.str authenticator.audience) ∧
      (authenticator.GenerateClaims 5 instant (instant + 1000) (instant + 2000)).lookup "sub" =
        some (.str (ObjectID.Hex 5)) :=
  ⟨by decide, by decide, by decide, by decide,
    generated_claims_shape authenticator 5 instant (instant + 1000) (instant + 2000) 3600
      (by decide) (by decide) (by decide) (by decide)⟩

end auth

/-! ## The hasher, the handlers and the repository -/

namespace users

open Example

/-- C13, as stated, fails: "abcdef" and "abcdef" followed by a zero byte and
"abcdef" are different passwords, both accepted by the validators, and
verifying the second against the hash of the first succeeds, because both
give the same 72 key bytes. -/
theorem verify_accepts_other_password :
    ("abcdef" : String) ≠ "abcdef\x00abcdef" ∧
    validPassword "abcdef" = true ∧ validPassword "abcdef\x00abcdef" = true ∧
    (bcrypt.GenerateFromPassword "abcdef" bcrypt.DefaultCost []).bind
      (fun hashed => bcrypt.CompareHashAndPassword hashed "abcdef\x00abcdef") = .ok () := by
  decide

/-- C13 (amended): for every password `p` that the hasher accepts, verifying
`p` against hash(p) succeeds; verifying `p'` against hash(p) succeeds when
`p'` gives the same 72 key bytes as `p` (the password followed by a zero
byte, repeated and cut at 72 bytes), and otherwise reports a mismatch, which
`Login` maps to `ErrInvalidCredentials`. -/
theorem verify_matches_key_stream {σ : Type} (repo : IUserRepository σ)
    (jwt : auth.IAuthenticator) (s : σ) (email p p' : String) (salt : List Nat) (u : User)
    (m₁ m₂ m₃ : Time)
    (hgen : bcrypt.GenerateFromPassword p bcrypt.DefaultCost salt = .ok u.Password)
    (hget : repo.GetUserByEmail s email = .ok u) :
    bcrypt.CompareHashAndPassword u.Password p = .ok () ∧
    (bcrypt.keyStream (bytes p') = bcrypt.keyStream (bytes p) →
      bcrypt.CompareHashAndPassword u.Password p' = .ok ()) ∧
    (bcrypt.keyStream (bytes p') ≠ bcrypt.keyStream (bytes p) →
      bcrypt.CompareHashAndPassword u.Password p' = .error .ErrMismatchedHashAndPassword ∧
      userService.Login repo jwt s { Email := email, Password := p' } m₁ m₂ m₃ =
        .error .ErrInvalidCredentials) := by
  have hu := bcrypt.generate_eq_ok p u.Password salt hgen
  refine ⟨?_, ?_, ?_⟩
  · rw [hu, bcrypt.compare_generated]; simp
  · intro h; rw [hu, bcrypt.compare_generated, if_pos h]
  · intro h
    have hc : bcrypt.CompareHashAndPassword u.Password p' = .error .ErrMismatchedHashAndPassword := by
      rw [hu, bcrypt.compare_generated, if_neg h]
    refine ⟨hc, ?_⟩
    unfold userService.Login
    simp [hget, hc]


/-- The hypotheses of `verify_matches_key_stream` hold for the account `ada`,
whose password is "secret1", and the other password "secret2". -/
theorem verify_matches_key_stream_witness :
    bcrypt.GenerateFromPassword "secret1" bcrypt.DefaultCost [] = .ok (decodeUser ada).Password ∧
    (NewUserRepositoryWithCollection memory).GetUserByEmail [ada] "ada@x.io" =
      .ok (decodeUser ada) ∧
    bcrypt.keyStream (bytes "secret2") ≠ bcrypt.keyStream (bytes "secret1") ∧
    bcrypt.CompareHashAndPassword (decodeUser ada).Password "secret1" = .ok () ∧
    bcrypt.CompareHashAndPassword (decodeUser ada).Password "secret2" =
      .error .ErrMismatchedHashAndPassword :=
  have h := verify_matches_key_stream (NewUserRepositoryWithCollection memory)
    authenticator.toIAuthenticator [ada] "ada@x.io" "secret1" "secret2" [] (decodeUser ada)
    instant instant instant (by decide) (by decide)
  ⟨by decide, by decide, by decide, h.1, (h.2.2 (by decide)).1⟩

/-- C14: for every non-empty path id and every caller identity different
from it, the `UpdateUser` and `DeleteUser` handlers answer with status 401
and "Unauthorized", whatever the service is, and hand back the state they
were given: the service is not invoked. -/
theorem mismatched_caller_unauthorized {σ : Type} (service : IUserService σ) (s : σ)
    (id tokenUser : String) (body : Except String UpdateUserRequest) (now : Time)
    (hid : id ≠ "") (hcaller : tokenUser ≠ id) :
    userHandler.UpdateUser service s id tokenUser body now =
      ((fiber.StatusUnauthorized,
        .error (some { TraceId := id, Message := "Unauthorized" })), s) ∧
    userHandler.DeleteUser service s id tokenUser =
      ((fiber.StatusUnauthorized,
        .error (some { TraceId := id, Message := "Unauthorized" })), s) := by
  unfold userHandler.UpdateUser userHandler.DeleteUser
  simp only [hid, hcaller, if_false, ne_eq, not_false_eq_true, if_true]
  exact ⟨rfl, rfl⟩


/-- The hypotheses of `mismatched_caller_unauthorized` hold when `bob` asks
to change or delete `ada`. -/
theorem mismatched_caller_unauthorized_witness :
    ("000000000000000000000001" : String) ≠ "" ∧
    ("000000000000000000000002" : String) ≠ "000000000000000000000001" ∧
    userHandler.UpdateUser service [ada, bob] "000000000000000000000001"
        "000000000000000000000002" (.ok { Name := "Mallory", Email := "m@x.io" }) instant =
      ((401, .error (some { TraceId := "000000000000000000000001",
                            Message := "Unauthorized" })), [ada, bob]) ∧
    userHandler.DeleteUser service [ada, bob] "000000000000000000000001"
        "000000000000000000000002" =
      ((401, .error (some { TraceId := "000000000000000000000001",
                            Message := "Unauthorized" })), [ada, bob]) :=
  ⟨by decide, by decide,
    mismatched_caller_unauthorized service [ada, bob] "000000000000000000000001"
      "000000000000000000000002" (.ok { Name := "Mallory", Email := "m@x.io" }) instant
      (by decide) (by decide)⟩

/-- C15: for every store state (identifiers being unique, as in every
collection) and every stored account id, after `DeleteUser(id)` returns nil,
`GetUserById(id)` returns `ErrUserNotFound`, and every other stored account
is returned by `GetUserById` as it was before. -/
theorem delete_then_lookup (s : Collection) (id : String) (oid : ObjectID)
    (hid : ObjectIDFromHex id = some oid)
    (hnd : (s.map (fun d => d._id)).Nodup)
    (hdel : (userRepository.DeleteUser memory s id).1 = .ok ()) :
    (∃ d ∈ s, d._id = oid) ∧
    userRepository.GetUserById memory (userRepository.DeleteUser memory s id).2 id =
      .error .ErrUserNotFound ∧
    ∀ d ∈ s, d._id ≠ oid → ∀ id', ObjectIDFromHex id' = some d._id →
      userRepository.GetUserById memory s id' = .ok (decodeUser d) ∧
      userRepository.GetUserById memory (userRepository.DeleteUser memory s id).2 id' =
        .ok (decodeUser d) := by
  unfold userRepository.DeleteUser at hdel ⊢
  simp only [hid, memory] at hdel ⊢
  cases hf : s.find? (Filter.byID oid).isMatch with
  | none => simp [hf] at hdel
  | some d₀ =>
    simp only [one_ne_zero, if_false]
    refine ⟨⟨d₀, List.mem_of_find?_eq_some hf, by simpa [Filter.isMatch] using List.find?_some hf⟩,
      ?_, ?_⟩
    · unfold userRepository.GetUserById
      simp [hid, find?_deleteFirst_same oid s hnd]
    · intro d hd hne id' hid'
      unfold userRepository.GetUserById
      simp [hid', find?_deleteFirst_other oid d._id hne s, find?_byID_of_mem s d hd hnd]


/-- The hypotheses of `delete_then_lookup` hold for deleting `ada` from a
store that also holds `bob`, who is still found afterwards. -/
theorem delete_then_lookup_witness :
    ObjectIDFromHex "000000000000000000000001" = some 1 ∧
    ([ada, bob].map (fun d => d._id)).Nodup ∧
    (userRepository.DeleteUser memory [ada, bob] "000000000000000000000001").1 = .ok () ∧
    userRepository.GetUserById memory
        (userRepository.DeleteUser memory [ada, bob] "000000000000000000000001").2
        "000000000000000000000001" = .error .ErrUserNotFound ∧
    userRepository.GetUserById memory
        (userRepository.DeleteUser memory [ada, bob] "000000000000000000000001").2
        "000000000000000000000002" = .ok (decodeUser bob) :=
  have h := delete_then_lookup [ada, bob] "000000000000000000000001" 1
    (by decide) (by decide) (by decide)
  ⟨by decide, by decide, by decide, h.2.1,
    (h.2.2 bob (by decide) (by decide) "000000000000000000000002" (by decide)).2⟩

/-- C16: for every string that is not a well-formed ObjectID hex string,
`GetUserById`, `UpdateUser` and `DeleteUser` return `ErrInvalidID` without
an account, whatever the backend is, and hand back the state they were
given: no backend operation takes part, not even the uniqueness lookup of
`UpdateUser`. -/
theorem invalid_id_rejected {σ : Type} (collection : MongoCollection σ) (s : σ) (id : String)
    (userReq : UpdateUserRequest) (now : Time) (h : wellFormedHex id = false) :
    userRepository.GetUserById collection s id = .error .ErrInvalidID ∧
    userRepository.UpdateUser collection s id userReq now = (.error .ErrInvalidID, s) ∧
    userRepository.DeleteUser collection s id = (.error .ErrInvalidID, s) := by
  have hnone := (ObjectIDFromHex_eq_none_iff id).mpr h
  unfold userRepository.GetUserById userRepository.UpdateUser userRepository.DeleteUser
  simp [hnone]


/-- The hypothesis of `invalid_id_rejected` holds for "invalid-id", here on
the in-memory store holding `ada`. -/
theorem invalid_id_rejected_witness :
    wellFormedHex "invalid-id" = false ∧
    userRepository.GetUserById memory [ada] "invalid-id" = .error .ErrInvalidID ∧
    userRepository.UpdateUser memory [ada] "invalid-id"
        { Name := "Ada", Email := "ada@x.io" } instant = (.error .ErrInvalidID, [ada]) ∧
    userRepository.DeleteUser memory [ada] "invalid-id" = (.error .ErrInvalidID, [ada]) :=
  ⟨by decide,
    invalid_id_rejected memory [ada] "invalid-id" { Name := "Ada", Email := "ada@x.io" } instant
      (by decide)⟩

/-- C17: for every `CreateUserRequest` whose email passes the uniqueness
check and whose insert succeeds, `CreateUser` hands the backend one document
with the name, email and password of the request and with both timestamps
set (the clock reading at or after the Unix epoch, they are not the zero
time), and returns that account with the identifier the insert reported; on
the in-memory store the collection afterwards is the old one followed by
exactly that document. -/
theorem create_inserts_request {σ : Type} (collection : MongoCollection σ) (s s' : σ)
    (userReq : CreateUserRequest) (generated insertedID : ObjectID) (now₁ now₂ : Time)
    (h₁ : 0 ≤ now₁) (h₂ : 0 ≤ now₂)
    (hcheck : userRepository.checkEmailUniqueness collection s userReq.Email [] = .ok ())
    (hins : collection.InsertOne s
      { ID := NilObjectID, Name := userReq.Name, Email := userReq.Email,
        Password := userReq.Password, CreatedAt := now₁, UpdatedAt := now₂ } generated =
      (.ok insertedID, s')) :
    userRepository.CreateUser collection s userReq generated now₁ now₂ =
      (.ok { ID := insertedID, Name := userReq.Name, Email := userReq.Email,
             Password := userReq.Password, CreatedAt := now₁, UpdatedAt := now₂ }, s') ∧
    Time.IsZero now₁ = false ∧ Time.IsZero now₂ = false ∧
    ∀ (m : Collection) (u : User),
      (userRepository.CreateUser memory m userReq generated now₁ now₂).1 = .ok u →
      u.ID = generated ∧
      ∃ d, (userRepository.CreateUser memory m userReq generated now₁ now₂).2 = m ++ [d] ∧
        d._id = generated ∧ d.name = userReq.Name ∧ d.email = userReq.Email ∧
        d.password = userReq.Password ∧
        (decodeUser d).CreatedAt.IsZero = false ∧ (decodeUser d).UpdatedAt.IsZero = false := by
  refine ⟨?_, ?_, ?_, ?_⟩
  · unfold userRepository.CreateUser
    simp only [hcheck, hins]
  · simpa [Time.IsZero, Time.zero] using (epoch_ne_zero now₁ h₁).1
  · simpa [Time.IsZero, Time.zero] using (epoch_ne_zero now₂ h₂).1
  · intro m u hu
    rw [CreateUser_memory] at hu ⊢
    split at hu
    · cases hu
    · split at hu
      · cases hu
      · rename_i hc hd
        rw [if_neg hc, if_neg hd]
        simp only [Except.ok.injEq] at hu
        refine ⟨by rw [← hu], _, rfl, rfl, rfl, rfl, rfl, ?_, ?_⟩
        · simpa [Time.IsZero, Time.zero, decodeUser, DateTime.toTime, DateTime.ofTime] using
            (epoch_ne_zero now₁ h₁).2
        · simpa [Time.IsZero, Time.zero, decodeUser, DateTime.toTime, DateTime.ofTime] using
            (epoch_ne_zero now₂ h₂).2


/-- The hypotheses of `create_inserts_request` hold for a request with a new
email on the in-memory store holding `bob`. -/
theorem create_inserts_request_witness :
    (0 : Int) ≤ instant ∧
    userRepository.checkEmailUniqueness memory [bob] "ada@x.io" [] = .ok () ∧
    memory.InsertOne [bob]
        { ID := NilObjectID, Name := "Ada", Email := "ada@x.io", Password := hashOfSecret1,
          CreatedAt := instant, UpdatedAt := instant } 7 =
      (.ok 7, [bob, { _id := 7, name := "Ada", email := "ada@x.io", password := hashOfSecret1,
                      created_at := 1700000000200, updated_at := 1700000000200,
                      updatedAt := none }]) ∧
    userRepository.CreateUser memory [bob]
        { Name := "Ada", Email := "ada@x.io", Password := hashOfSecret1 } 7 instant instant =
      (.ok { ID := 7, Name := "Ada", Email := "ada@x.io", Password := hashOfSecret1,
             CreatedAt := instant, UpdatedAt := instant },
       [bob, { _id := 7, name := "Ada", email := "ada@x.io", password := hashOfSecret1,
               created_at := 1700000000200, updated_at := 1700000000200,
               updatedAt := none }]) :=
  ⟨by decide, by decide, by decide,
    (create_inserts_request memory [bob] _
      { Name := "Ada", Email := "ada@x.io", Password := hashOfSecret1 } 7 7 instant instant
      (by decide) (by decide) (by decide) (by decide)).1⟩

/-- C18: failures of the backend on the write path are classified, and no
account is returned: for every backend error `e`, `CreateUser` returns
`ErrInsertFailed` when `InsertOne` fails with `e`, `DeleteUser` returns
`ErrDeleteFailed` when `DeleteOne` fails with `e`, and `UpdateUser` returns
`ErrUpdateFailed` when `FindOneAndUpdate` fails with any `e` other than
no-documents. -/
theorem write_failures_classified {σ : Type} (collection : MongoCollection σ) (s s' : σ)
    (e : Error) :
    (∀ userReq generated now₁ now₂,
      userRepository.checkEmailUniqueness collection s userReq.Email [] = .ok () →
      collection.InsertOne s
        { ID := NilObjectID, Name := userReq.Name, Email := userReq.Email,
          Password := userReq.Password, CreatedAt := now₁, UpdatedAt := now₂ } generated =
        (.error e, s') →
      userRepository.CreateUser collection s userReq generated now₁ now₂ =
        (.error .ErrInsertFailed, s')) ∧
    (∀ id oid, ObjectIDFromHex id = some oid →
      collection.DeleteOne s (.byID oid) = (.error e, s') →
      userRepository.DeleteUser collection s id = (.error .ErrDeleteFailed, s')) ∧
    (∀ id oid userReq now, ObjectIDFromHex id = some oid →
      userRepository.checkEmailUniqueness collection s userReq.Email [oid] = .ok () →
      collection.FindOneAndUpdate s (.byID oid)
        { name := userReq.Name, email := userReq.Email, updatedAt := DateTime.ofTime now } =
        (.error e, s') →
      e ≠ .ErrNoDocuments →
      userRepository.UpdateUser collection s id userReq now = (.error .ErrUpdateFailed, s')) := by
  refine ⟨?_, ?_, ?_⟩
  · intro userReq generated now₁ now₂ hc hi
    unfold userRepository.CreateUser
    simp only [hc, hi]
  · intro id oid hid hd
    unfold userRepository.DeleteUser
    simp only [hid, hd]
  · intro id oid userReq now hid hc hf hne
    unfold userRepository.UpdateUser
    simp only [hid, hc, hf, hne, if_false]


/-- The three cases of `write_failures_classified` on a backend whose writes
fail with "not primary". -/
theorem write_failures_classified_witness :
    userRepository.CreateUser readOnly ()
        { Name := "Ada", Email := "ada@x.io", Password := hashOfSecret1 } 7 instant instant =
      (.error .ErrInsertFailed, ()) ∧
    userRepository.DeleteUser readOnly () "000000000000000000000001" =
      (.error .ErrDeleteFailed, ()) ∧
    userRepository.UpdateUser readOnly () "000000000000000000000001"
        { Name := "Ada", Email := "ada@x.io" } instant = (.error .ErrUpdateFailed, ()) :=
  have h := write_failures_classified readOnly () () (.other "not primary")
  ⟨h.1 { Name := "Ada", Email := "ada@x.io", Password := hashOfSecret1 } 7 instant instant
      (by decide) (by decide),
    h.2.1 "000000000000000000000001" 1 (by decide) (by decide),
    h.2.2 "000000000000000000000001" 1 { Name := "Ada", Email := "ada@x.io" } instant
      (by decide) (by decide) (by decide) (by decide)⟩

/-- C19: absence is reported as `ErrUserNotFound`. `GetUserById` and
`GetUserByEmail` return it when the backend reports no document,
`UpdateUser` returns it when the find-and-update matches no document, and
`DeleteUser` returns it exactly when the id is well formed and the backend
delete succeeds with a deleted count of zero. -/
theorem absence_is_not_found {σ : Type} (collection : MongoCollection σ) (s : σ) :
    (∀ id oid, ObjectIDFromHex id = some oid →
      collection.FindOne s (.byID oid) = .error .ErrNoDocuments →
      userRepository.GetUserById collection s id = .error .ErrUserNotFound) ∧
    (∀ email, collection.FindOne s (.byEmail email) = .error .ErrNoDocuments →
      userRepository.GetUserByEmail collection s email = .error .ErrUserNotFound) ∧
    (∀ id oid userReq now s', ObjectIDFromHex id = some oid →
      userRepository.checkEmailUniqueness collection s userReq.Email [oid] = .ok () →
      collection.FindOneAndUpdate s (.byID oid)
        { name := userReq.Name, email := userReq.Email, updatedAt := DateTime.ofTime now } =
        (.error .ErrNoDocuments, s') →
      userRepository.UpdateUser collection s id userReq now = (.error .ErrUserNotFound, s')) ∧
    (∀ id, (userRepository.DeleteUser collection s id).1 = .error .ErrUserNotFound ↔
      ∃ oid, ObjectIDFromHex id = some oid ∧
        (collection.DeleteOne s (.byID oid)).1 = .ok 0) := by
  refine ⟨?_, ?_, ?_, ?_⟩
  · intro id oid hid hf
    unfold userRepository.GetUserById
    simp [hid, hf]
  · intro email hf
    unfold userRepository.GetUserByEmail
    simp [hf]
  · intro id oid userReq now s' hid hc hf
    unfold userRepository.UpdateUser
    simp [hid, hc, hf]
  · intro id
    unfold userRepository.DeleteUser
    cases hid : ObjectIDFromHex id with
    | none => simp
    | some oid =>
      simp only [Option.some.injEq, exists_eq_left']
      rcases hd : collection.DeleteOne s (.byID oid) with ⟨r, s'⟩
      cases r with
      | error e => simp
      | ok n =>
        simp only
        by_cases hn : n = 0
        · simp [hn]
        · simp [hn]


/-- The cases of `absence_is_not_found` on the in-memory store holding `bob`,
for the identifier and the email of `ada`. -/
theorem absence_is_not_found_witness :
    userRepository.GetUserById memory [bob] "000000000000000000000001" =
      .error .ErrUserNotFound ∧
    userRepository.GetUserByEmail memory [bob] "ada@x.io" = .error .ErrUserNotFound ∧
    userRepository.UpdateUser memory [bob] "000000000000000000000001"
        { Name := "Ada", Email := "ada@x.io" } instant = (.error .ErrUserNotFound, [bob]) ∧
    (userRepository.DeleteUser memory [bob] "000000000000000000000001").1 =
      .error .ErrUserNotFound :=
  have h := absence_is_not_found memory [bob]
  ⟨h.1 "000000000000000000000001" 1 (by decide) (by decide),
    h.2.1 "ada@x.io" (by decide),
    h.2.2.1 "000000000000000000000001" 1 { Name := "Ada", Email := "ada@x.io" } instant [bob]
      (by decide) (by decide) (by decide),
    (h.2.2.2 "000000000000000000000001").mpr ⟨1, by decide, by decide⟩⟩

/-- C20: the public projection does not carry the password hash. For every
user, `ToResponse` consists exactly of the ID, the name and the email; the
`UserResponse` embedded in `ToResponseWithToken` and in
`ToResponseWithMessage` equals `ToResponse`, for every token and message;
and the projection is the same whatever the password hash and the
timestamps of the user are. -/
theorem projection_omits_password (u : User) (t : jwt.TokenString) (m : String) :
    u.ToResponse = { ID := u.ID, Name := u.Name, Email := u.Email } ∧
    (u.ToResponseWithToken t).toUserResponse = u.ToResponse ∧
    (u.ToResponseWithMessage m).toUserResponse = u.ToResponse ∧
    ∀ password createdAt updatedAt,
      ({ u with Password := password, CreatedAt := createdAt, UpdatedAt := updatedAt } :
        User).ToResponse = u.ToResponse :=
  ⟨rfl, rfl, rfl, fun _ _ _ => rfl⟩

end users

/-! ## Lemmas: lengths of strings and hashes -/

theorem length_le_len (s : String) : s.data.length ≤ len s := by
  unfold len bytes
  induction s.data with
  | nil => simp
  | cons c cs ih =>
    have h1 : 1 ≤ (utf8EncodeRune c).length := by
      unfold utf8EncodeRune
      simp only []
      split_ifs <;> simp
    simp only [List.map_cons, List.flatten_cons, List.length_append, List.length_cons]
    omega

namespace bcrypt

theorem generate_len_le (p hashed : String) (salt : List Nat)
    (h : GenerateFromPassword p DefaultCost salt = .ok hashed) : len p ≤ 72 := by
  unfold GenerateFromPassword at h
  split at h
  · cases h
  · omega

/-- A hash string is longer than any password the hasher accepts. -/
theorem generate_ne_plaintext (p hashed : String) (salt : List Nat)
    (h : GenerateFromPassword p DefaultCost salt = .ok hashed) : hashed ≠ p := by
  have hlen := generate_len_le p hashed salt h
  have he := generate_eq_ok p hashed salt h
  intro hp
  have h1 : hashed.data.length = p.data.length := by rw [hp]
  rw [he] at h1
  have h2 := length_le_len p
  simp only [encodeHash, hashHeader, List.length_append, List.length_map, List.length_cons,
    List.length_nil, keyStream_length] at h1
  omega

end bcrypt

/-! ## Registration: what is stored, what is reported, in which order -/

namespace users

/-- C21: on every request whose password the hasher accepts, so that
`CreateUser` of the service reaches the store, the request handed to the
repository is the given one with the password replaced by the hash: the hash
differs from the plaintext and verifies against it, and for every repository
the state after the call is the one the repository returns for the request
with the hash. On the document store the inserted document carries the hash
in its password field, and the returned projection consists of the
generated identifier, the name and the email of the request and the token
signed over the claims generated from the identifier: no field of it is
computed from the password. -/
theorem stored_password_is_hash (a : auth.JWTAuthenticator) (userReq : CreateUserRequest)
    (salt : List Nat) (generated : ObjectID) (n₁ n₂ n₃ n₄ n₅ : Time) (hashed : String)
    (hgen : bcrypt.GenerateFromPassword userReq.Password bcrypt.DefaultCost salt = .ok hashed) :
    hashed ≠ userReq.Password ∧
    bcrypt.CompareHashAndPassword hashed userReq.Password = .ok () ∧
    (∀ (σ : Type) (repo : IUserRepository σ) (jwt : auth.IAuthenticator) (s : σ),
      (userService.CreateUser repo jwt s userReq salt generated n₁ n₂ n₃ n₄ n₅).2 =
        (repo.CreateUser s { userReq with Password := hashed } generated n₁ n₂).2) ∧
    (∀ (s s' : Collection) (r : UserResponseWithToken),
      userService.CreateUser (NewUserRepositoryWithCollection memory) a.toIAuthenticator s
          userReq salt generated n₁ n₂ n₃ n₄ n₅ = (.ok r, s') →
      s' = s ++ [{ _id := generated, name := userReq.Name, email := userReq.Email,
                   password := hashed, created_at := DateTime.ofTime n₁,
                   updated_at := DateTime.ofTime n₂, updatedAt := none }] ∧
      r = { ID := generated, Name := userReq.Name, Email := userReq.Email,
            Token := .compact (some "HS256") (a.GenerateClaims generated n₃ n₄ n₅)
              (.hs256 (hmac.keyBlock (bytes a.secret))) }) := by
  refine ⟨bcrypt.generate_ne_plaintext _ _ _ hgen, ?_, ?_, ?_⟩
  · have he := bcrypt.generate_eq_ok _ _ _ hgen
    rw [he, bcrypt.compare_generated, if_pos rfl]
  · intro σ repo jwt s
    unfold userService.CreateUser
    rw [hgen]
    simp only []
    rcases hr : repo.CreateUser s { userReq with Password := hashed } generated n₁ n₂ with
      ⟨res, s'⟩
    cases res with
    | error err => rfl
    | ok user =>
      simp only []
      cases jwt.GenerateToken (jwt.GenerateClaims user.ID n₃ n₄ n₅) <;> rfl
  · intro s s' r h
    unfold userService.CreateUser at h
    rw [hgen] at h
    simp only [NewUserRepositoryWithCollection] at h
    rw [CreateUser_memory] at h
    split_ifs at h with h₁ h₂
    · simp at h
    · simp at h
    · simp only [auth.JWTAuthenticator.toIAuthenticator, auth.JWTAuthenticator.GenerateToken,
        User.ToResponseWithToken, Prod.mk.injEq, Except.ok.injEq] at h
      exact ⟨h.2.symm, h.1.symm⟩

/-- Registering "secret1" on the empty store: the stored password is the
hash, and the projection is the identifier, name, email and token. -/
theorem stored_password_is_hash_witness :
    bcrypt.GenerateFromPassword "secret1" bcrypt.DefaultCost [] = .ok Example.hashOfSecret1 ∧
    Example.hashOfSecret1 ≠ "secret1" ∧
    bcrypt.CompareHashAndPassword Example.hashOfSecret1 "secret1" = .ok () ∧
    [Example.ada] = [] ++ [{ _id := 1, name := "Ada", email := "ada@x.io",
                             password := Example.hashOfSecret1,
                             created_at := DateTime.ofTime 1700000000000000000,
                             updated_at := DateTime.ofTime 1700000000000000000,
                             updatedAt := none }] ∧
    ({ ID := 1, Name := "Ada", Email := "ada@x.io",
       Token := .compact (some "HS256")
         (Example.authenticator.GenerateClaims 1 Example.instant Example.instant
           Example.instant)
         (.hs256 (hmac.keyBlock (bytes "k"))) } : UserResponseWithToken) =
      { ID := 1, Name := "Ada", Email := "ada@x.io",
        Token := .compact (some "HS256")
          (Example.authenticator.GenerateClaims 1 Example.instant Example.instant
            Example.instant)
          (.hs256 (hmac.keyBlock (bytes Example.authenticator.secret))) } :=
  have h := stored_password_is_hash Example.authenticator
    { Name := "Ada", Email := "ada@x.io", Password := "secret1" } [] 1 1700000000000000000
    1700000000000000000 Example.instant Example.instant Example.instant Example.hashOfSecret1
    (by decide)
  ⟨by decide, h.1, h.2.1, h.2.2.2 [] [Example.ada] _ (by decide)⟩

/-- C22, on the code: the service returns the error of the library, not the
taxonomy error. A request that the validators accept, with a password of 25
code points and 75 bytes, fails with the `ErrPasswordTooLong` of bcrypt and
not with `ErrHashingPassword`; with a signer that fails, `CreateUser` fails
with the error of the signer and not with `ErrGeneratingToken`, after the
account has been inserted. -/
theorem create_returns_library_errors :
    CreateUserRequest.valid Example.isEmail
        { Name := "Ada", Email := "ada@x.io", Password := Example.longPassword } = true ∧
    userService.CreateUser (NewUserRepositoryWithCollection memory)
        Example.authenticator.toIAuthenticator []
        { Name := "Ada", Email := "ada@x.io", Password := Example.longPassword }
        [] 1 Example.instant Example.instant Example.instant Example.instant Example.instant =
      (.error .ErrPasswordTooLong, []) ∧
    userService.CreateUser (NewUserRepositoryWithCollection memory) Example.brokenSigner []
        { Name := "Ada", Email := "ada@x.io", Password := "secret1" }
        [] 1 1700000000000000000 1700000000000000000 Example.instant Example.instant
        Example.instant =
      (.error (.other "key is of invalid type"), [Example.ada]) ∧
    Error.ErrPasswordTooLong ≠ Error.ErrHashingPassword ∧
    Error.other "key is of invalid type" ≠ Error.ErrGeneratingToken := by
  decide

/-- C23: the stages of `CreateUser` of the service abort in order, without
rollback. If hashing fails, the result is the error and the given state,
whatever the repository and the authenticator are: the store is not called.
If the create of the repository fails, the result is its error and the state
it returned, whatever the authenticator is: no claims are generated and no
token is issued. If the create succeeds and signing fails, the result is the
error of the signer, with no projection, and the state is the one the
repository returned after the insert. -/
theorem register_aborts_in_order {σ : Type} (repo : IUserRepository σ)
    (jwt : auth.IAuthenticator) (s : σ) (salt : List Nat) (generated : ObjectID)
    (n₁ n₂ n₃ n₄ n₅ : Time) :
    (∀ (userReq : CreateUserRequest) err,
      bcrypt.GenerateFromPassword userReq.Password bcrypt.DefaultCost salt = .error err →
      ∀ (repo' : IUserRepository σ) (jwt' : auth.IAuthenticator),
        userService.CreateUser repo' jwt' s userReq salt generated n₁ n₂ n₃ n₄ n₅ =
          (.error err, s)) ∧
    (∀ (userReq : CreateUserRequest) hashed err s',
      bcrypt.GenerateFromPassword userReq.Password bcrypt.DefaultCost salt = .ok hashed →
      repo.CreateUser s { userReq with Password := hashed } generated n₁ n₂ = (.error err, s') →
      ∀ jwt' : auth.IAuthenticator,
        userService.CreateUser repo jwt' s userReq salt generated n₁ n₂ n₃ n₄ n₅ =
          (.error err, s')) ∧
    (∀ (userReq : CreateUserRequest) hashed user s' err,
      bcrypt.GenerateFromPassword userReq.Password bcrypt.DefaultCost salt = .ok hashed →
      repo.CreateUser s { userReq with Password := hashed } generated n₁ n₂ = (.ok user, s') →
      jwt.GenerateToken (jwt.GenerateClaims user.ID n₃ n₄ n₅) = .error err →
      userService.CreateUser repo jwt s userReq salt generated n₁ n₂ n₃ n₄ n₅ =
        (.error err, s')) := by
  refine ⟨?_, ?_, ?_⟩
  · intro userReq err h repo' jwt'
    unfold userService.CreateUser
    rw [h]
  · intro userReq hashed err s' h hr jwt'
    unfold userService.CreateUser
    rw [h]
    simp only []
    rw [hr]
  · intro userReq hashed user s' err h hr ht
    unfold userService.CreateUser
    rw [h]
    simp only []
    rw [hr]
    simp only []
    rw [ht]

/-- The three aborts on the store that holds `bob`, with a signer that fails:
a password of 75 bytes, the email of `bob`, and a new email, after which the
new account is in the store. -/
theorem register_aborts_in_order_witness :
    userService.CreateUser (NewUserRepositoryWithCollection Example.unreachable)
        Example.authenticator.toIAuthenticator ()
        { Name := "Ada", Email := "ada@x.io", Password := Example.longPassword }
        [] 1 1700000000000000000 1700000000000000000 Example.instant Example.instant
        Example.instant = (.error .ErrPasswordTooLong, ()) ∧
    userService.CreateUser (NewUserRepositoryWithCollection memory)
        Example.authenticator.toIAuthenticator [Example.bob]
        { Name := "Rob", Email := "bob@x.io", Password := "secret1" }
        [] 1 1700000000000000000 1700000000000000000 Example.instant Example.instant
        Example.instant = (.error .ErrEmailAlreadyExists, [Example.bob]) ∧
    userService.CreateUser (NewUserRepositoryWithCollection memory) Example.brokenSigner
        [Example.bob] { Name := "Ada", Email := "ada@x.io", Password := "secret1" }
        [] 1 1700000000000000000 1700000000000000000 Example.instant Example.instant
        Example.instant =
      (.error (.other "key is of invalid type"), [Example.bob, Example.ada]) :=
  ⟨(register_aborts_in_order (NewUserRepositoryWithCollection Example.readOnly)
      Example.brokenSigner () [] 1 1700000000000000000 1700000000000000000 Example.instant
      Example.instant Example.instant).1
      { Name := "Ada", Email := "ada@x.io", Password := Example.longPassword }
      .ErrPasswordTooLong (by decide) (NewUserRepositoryWithCollection Example.unreachable)
      Example.authenticator.toIAuthenticator,
    (register_aborts_in_order (NewUserRepositoryWithCollection memory) Example.brokenSigner
      [Example.bob] [] 1 1700000000000000000 1700000000000000000 Example.instant
      Example.instant Example.instant).2.1
      { Name := "Rob", Email := "bob@x.io", Password := "secret1" } Example.hashOfSecret1
      .ErrEmailAlreadyExists [Example.bob] (by decide) (by decide)
      Example.authenticator.toIAuthenticator,
    (register_aborts_in_order (NewUserRepositoryWithCollection memory) Example.brokenSigner
      [Example.bob] [] 1 1700000000000000000 1700000000000000000 Example.instant
      Example.instant Example.instant).2.2
      { Name := "Ada", Email := "ada@x.io", Password := "secret1" } Example.hashOfSecret1
      { ID := 1, Name := "Ada", Email := "ada@x.io", Password := Example.hashOfSecret1,
        CreatedAt := 1700000000000000000, UpdatedAt := 1700000000000000000 }
      [Example.bob, Example.ada] (.other "key is of invalid type")
      (by decide) (by decide) (by decide)⟩

/-- C24: for every list of accounts that the repository returns, `GetUsers`
of the service returns a list of the same length whose element at each index
is the projection (identifier, name, email) of the account at that index;
and when `Find` of the backend fails, `GetUsers` of the repository returns
the error and no result. -/
theorem get_users_projects_each {σ : Type} :
    (∀ (repo : IUserRepository σ) (s : σ) (accounts : List User),
      repo.GetUsers s = .ok accounts →
      ∃ l, userService.GetUsers repo s = .ok l ∧ l.length = accounts.length ∧
        ∀ (i : Nat) (u : User), accounts[i]? = some u →
          l[i]? = some { ID := u.ID, Name := u.Name, Email := u.Email }) ∧
    (∀ (collection : MongoCollection σ) (s : σ) (err : Error),
      collection.Find s .all = .error err →
      userRepository.GetUsers collection s = .error err) := by
  refine ⟨?_, ?_⟩
  · intro repo s accounts h
    refine ⟨accounts.map User.ToResponse, ?_, ?_, ?_⟩
    · unfold userService.GetUsers
      rw [h]
    · simp
    · intro i u hi
      simp [List.getElem?_map, hi, User.ToResponse]
  · intro collection s err h
    unfold userRepository.GetUsers
    exact h

/-- The projections of the store that holds `ada` and `bob`, and the error of
a backend that is unreachable. -/
theorem get_users_projects_each_witness :
    (∃ l, userService.GetUsers (NewUserRepositoryWithCollection memory)
        [Example.ada, Example.bob] = .ok l ∧ l.length = 2 ∧
      ∀ (i : Nat) (u : User),
        [mongo.decodeUser Example.ada, mongo.decodeUser Example.bob][i]? = some u →
          l[i]? = some { ID := u.ID, Name := u.Name, Email := u.Email }) ∧
    userRepository.GetUsers Example.unreachable () = .error (.other "connection reset") :=
  ⟨(@get_users_projects_each Collection).1 (NewUserRepositoryWithCollection memory)
      [Example.ada, Example.bob] [mongo.decodeUser Example.ada, mongo.decodeUser Example.bob]
      (by decide),
    (@get_users_projects_each Unit).2 Example.unreachable () (.other "connection reset")
      (by decide)⟩

end users

/-! ## The update timestamp -/

namespace users

/-- What a successful `UpdateUser` returns on the document store: the name
and email of the request, and the identifier, password hash and both
timestamps of the stored document as they were. -/
theorem UpdateUser_memory_ok (s s' : Collection) (id : String) (userReq : UpdateUserRequest)
    (now : Time) (u : User)
    (h : userRepository.UpdateUser memory s id userReq now = (.ok u, s')) :
    ∃ oid d, ObjectIDFromHex id = some oid ∧ s.find? (Filter.byID oid).isMatch = some d ∧
      u = { ID := d._id, Name := userReq.Name, Email := userReq.Email, Password := d.password,
            CreatedAt := DateTime.toTime d.created_at,
            UpdatedAt := DateTime.toTime d.updated_at } ∧
      s' = updateFirst (.byID oid)
        { name := userReq.Name, email := userReq.Email, updatedAt := DateTime.ofTime now } s := by
  unfold userRepository.UpdateUser at h
  cases hid : ObjectIDFromHex id with
  | none => rw [hid] at h; simp at h
  | some oid =>
    rw [hid] at h
    simp only [] at h
    cases hc : userRepository.checkEmailUniqueness memory s userReq.Email [oid] with
    | error e => rw [hc] at h; simp at h
    | ok x =>
      rw [hc] at h
      simp only [memory] at h
      cases hf : s.find? (Filter.byID oid).isMatch with
      | none => rw [hf] at h; simp at h
      | some d =>
        rw [hf] at h
        simp only [Prod.mk.injEq, Except.ok.injEq] at h
        exact ⟨oid, d, rfl, hf, by rw [← h.1]; rfl, h.2.symm⟩

/-- C25, on the code: a successful `UpdateUser` does not refresh `UpdatedAt`.
The `$set` writes the field "updatedAt", while `User.UpdatedAt` is read from
the field "updated_at". Updating the account `ada`, created at
1700000000.000 s, at the instant 1700000000.200 s returns the new name, the
same email, password hash and `CreatedAt`, and an `UpdatedAt` that is still
the time of creation; the stored document keeps its "updated_at" and gains
an "updatedAt" with the update time. -/
theorem update_leaves_updated_at :
    userRepository.UpdateUser memory [Example.ada] "000000000000000000000001"
        { Name := "Ada L.", Email := "ada@x.io" } Example.instant =
      (.ok { ID := 1, Name := "Ada L.", Email := "ada@x.io",
             Password := Example.hashOfSecret1, CreatedAt := 1700000000000000000,
             UpdatedAt := 1700000000000000000 },
       [{ _id := 1, name := "Ada L.", email := "ada@x.io", password := Example.hashOfSecret1,
          created_at := 1700000000000, updated_at := 1700000000000,
          updatedAt := some 1700000000200 }]) ∧
    DateTime.toTime (DateTime.ofTime Example.instant) = 1700000000200000000 := by
  decide

end users

/-! ## The response builder -/

namespace response

theorem build_append {α : Type} (calls : List (Call α)) (c : Call α) :
    build (calls ++ [c]) = Call.apply (build calls) c := by
  simp [build, List.foldl_append]

theorem build_isError {α : Type} (calls : List (Call α)) :
    (build calls).IsError = calls.any Call.isError := by
  induction calls using List.reverseRecOn with
  | nil => rfl
  | append_singleton cs c ih =>
    rw [build_append, List.any_append]
    cases c with
    | success code data => simp [Call.apply, Response.Success, ih, Call.isError]
    | error code t m => simp [Call.apply, Response.Error, Call.isError]

/-- C26, as stated, fails: the response built by no call has neither payload,
and the responses built by `Error` then `Success`, or by `Success` then
`Error`, have both. -/
theorem payloads_both_or_neither :
    ((build ([] : List (Call Nat))).Data = none ∧
      (build ([] : List (Call Nat))).ErrorRes = none) ∧
    ((build [Call.error 500 "" "boom", Call.success 200 (some 1)]).Data = some 1 ∧
      (build [Call.error 500 "" "boom", Call.success 200 (some 1)]).ErrorRes =
        some { TraceId := "", Message := "boom" }) ∧
    ((build [Call.success 200 (some 1), Call.error 500 "" "boom"]).Data = some 1 ∧
      (build [Call.success 200 (some 1), Call.error 500 "" "boom"]).ErrorRes =
        some { TraceId := "", Message := "boom" }) := by
  decide

/-- C26 (amended): a response built from `NewResponse` by one call has exactly
one payload: `Success` with a payload that is not nil populates `Data` only,
and `Error` populates `ErrorRes` only. For every sequence of `Success` and
`Error` calls, `Response()` sends the error payload exactly when the response
is an error and the data otherwise, and the response is an error exactly when
one of the calls is an `Error` call. -/
theorem single_call_payload_and_error_body {α : Type} :
    (∀ (code : Nat) (data : α),
      (build [Call.success code (some data)]).Data = some data ∧
      (build [Call.success code (some data)]).ErrorRes = none) ∧
    (∀ (code : Nat) (traceId msg : String),
      (build [(Call.error code traceId msg : Call α)]).Data = none ∧
      (build [(Call.error code traceId msg : Call α)]).ErrorRes =
        some { TraceId := traceId, Message := msg }) ∧
    (∀ calls : List (Call α),
      ((build calls).Response.2 = Body.error (build calls).ErrorRes ↔
        (build calls).IsError = true) ∧
      ((build calls).Response.2 = Body.data (build calls).Data ↔
        (build calls).IsError = false) ∧
      ((build calls).IsError = true ↔ ∃ c ∈ calls, c.isError = true)) := by
  refine ⟨fun _ _ => ⟨rfl, rfl⟩, fun _ _ _ => ⟨rfl, rfl⟩, ?_⟩
  intro calls
  refine ⟨?_, ?_, ?_⟩
  · unfold Response.Response
    cases (build calls).IsError <;> simp
  · unfold Response.Response
    cases (build calls).IsError <;> simp
  · rw [build_isError, List.any_eq_true]

/-- The response of a handler that succeeds with payload 1, and the body sent
after `Success` then `Error`. -/
theorem single_call_payload_and_error_body_witness :
    ((build [Call.success 200 (some 1)]).Data = some 1 ∧
      (build [Call.success 200 (some 1)]).ErrorRes = none) ∧
    (build [Call.success 200 (some 1), Call.error 500 "" "boom"]).Response.2 =
      Body.error (build [Call.success 200 (some 1), Call.error 500 "" "boom"]).ErrorRes :=
  ⟨(@single_call_payload_and_error_body Nat).1 200 1,
    ((@single_call_payload_and_error_body Nat).2.2
      [Call.success 200 (some 1), Call.error 500 "" "boom"]).1.mpr (by decide)⟩

end response

/-! ## Two concurrent calls of `CreateUser` -/

namespace users

/-- The two backend operations of a call, one after the other on a backend
that nothing else touches, are `userRepository.CreateUser`. -/
theorem CreateUserCall_step_step {σ : Type} (collection : MongoCollection σ) (s : σ)
    (userReq : CreateUserRequest) (generated : ObjectID) (now₁ now₂ : Time) :
    CreateUserCall.step collection
        (CreateUserCall.step collection s (.start userReq generated now₁ now₂)).2
        (CreateUserCall.step collection s (.start userReq generated now₁ now₂)).1 =
      (.returned (userRepository.CreateUser collection s userReq generated now₁ now₂).1,
        (userRepository.CreateUser collection s userReq generated now₁ now₂).2) := by
  unfold userRepository.CreateUser
  simp only [CreateUserCall.step]
  cases hc : userRepository.checkEmailUniqueness collection s userReq.Email [] with
  | error err => simp [CreateUserCall.step]
  | ok u =>
    simp only [CreateUserCall.step]
    rcases hi : collection.InsertOne s
      { ID := NilObjectID, Name := userReq.Name, Email := userReq.Email,
        Password := userReq.Password, CreatedAt := now₁, UpdatedAt := now₂ } generated with
      ⟨r, s'⟩
    cases r <;> rfl

theorem any_email_false (s : Collection) (e : String) (h : ∀ d ∈ s, d.email ≠ e) :
    s.any (fun d => decide (d.email = e)) = false := by
  rw [List.any_eq_false]
  intro d hd
  simpa using h d hd

theorem any_id_false (s : Collection) (g : ObjectID) (h : ∀ d ∈ s, d._id ≠ g) :
    s.any (fun d => decide (d._id = g)) = false := by
  rw [List.any_eq_false]
  intro d hd
  simpa using h d hd

theorem step_start_memory (s : Collection) (r : CreateUserRequest) (g : ObjectID)
    (t₁ t₂ : Time) (h : ∀ d ∈ s, d.email ≠ r.Email) :
    CreateUserCall.step memory s (.start r g t₁ t₂) = (.checked r g t₁ t₂, s) := by
  simp only [CreateUserCall.step]
  rw [checkEmailUniqueness_memory]
  have hf : (userRepository.uniquenessFilter r.Email []).isMatch =
      fun d => decide (d.email = r.Email) := by
    funext d; simp [userRepository.uniquenessFilter, Filter.isMatch]
  rw [hf, any_email_false s r.Email h]
  simp

theorem step_checked_memory (s : Collection) (r : CreateUserRequest) (g : ObjectID)
    (t₁ t₂ : Time) (h : ∀ d ∈ s, d._id ≠ g) :
    CreateUserCall.step memory s (.checked r g t₁ t₂) =
      (.returned (.ok { ID := g, Name := r.Name, Email := r.Email, Password := r.Password,
                        CreatedAt := t₁, UpdatedAt := t₂ }),
        s ++ [{ _id := g, name := r.Name, email := r.Email, password := r.Password,
                created_at := DateTime.ofTime t₁, updated_at := DateTime.ofTime t₂,
                updatedAt := none }]) := by
  have hz : NilObjectID.IsZero = true := by decide
  simp only [CreateUserCall.step, memory, encodeUser, hz, if_true, any_id_false s g h]
  simp

/-- C27: the check and the insert of `CreateUser` are not atomic. For two calls
with the same email on a store with no account for that email, with fresh
and distinct generated identifiers, the schedule first, second, first,
second lets both uniqueness checks pass before either insert, and then both
calls return an account and the store holds two documents with that email. -/
theorem concurrent_creates_share_email (s : Collection) (r₁ r₂ : CreateUserRequest)
    (g₁ g₂ : ObjectID) (t₁ t₂ t₃ t₄ : Time)
    (hemail : r₁.Email = r₂.Email)
    (hnone : ∀ d ∈ s, d.email ≠ r₁.Email)
    (hfresh₁ : ∀ d ∈ s, d._id ≠ g₁) (hfresh₂ : ∀ d ∈ s, d._id ≠ g₂) (hne : g₁ ≠ g₂) :
    TwoCalls.run memory
        { store := s, first := .start r₁ g₁ t₁ t₂, second := .start r₂ g₂ t₃ t₄ }
        [false, true] =
      { store := s, first := .checked r₁ g₁ t₁ t₂, second := .checked r₂ g₂ t₃ t₄ } ∧
    TwoCalls.run memory
        { store := s, first := .start r₁ g₁ t₁ t₂, second := .start r₂ g₂ t₃ t₄ }
        [false, true, false, true] =
      { store := s ++
          [{ _id := g₁, name := r₁.Name, email := r₁.Email, password := r₁.Password,
             created_at := DateTime.ofTime t₁, updated_at := DateTime.ofTime t₂,
             updatedAt := none },
           { _id := g₂, name := r₂.Name, email := r₁.Email, password := r₂.Password,
             created_at := DateTime.ofTime t₃, updated_at := DateTime.ofTime t₄,
             updatedAt := none }],
        first := .returned (.ok { ID := g₁, Name := r₁.Name, Email := r₁.Email,
                                  Password := r₁.Password, CreatedAt := t₁, UpdatedAt := t₂ }),
        second := .returned (.ok { ID := g₂, Name := r₂.Name, Email := r₁.Email,
                                   Password := r₂.Password, CreatedAt := t₃,
                                   UpdatedAt := t₄ }) } := by
  have hnone₂ : ∀ d ∈ s, d.email ≠ r₂.Email := by rw [← hemail]; exact hnone
  have hfresh₂' : ∀ d ∈ s ++ [Document.mk g₁ r₁.Name r₁.Email r₁.Password
      (DateTime.ofTime t₁) (DateTime.ofTime t₂) none], d._id ≠ g₂ := by
    intro d hd
    rw [List.mem_append, List.mem_singleton] at hd
    rcases hd with hd | hd
    · exact hfresh₂ d hd
    · rw [hd]; exact hne
  constructor
  · simp only [TwoCalls.run, List.foldl, TwoCalls.step, Bool.false_eq_true, if_false, if_true,
      step_start_memory s r₁ g₁ t₁ t₂ hnone, step_start_memory s r₂ g₂ t₃ t₄ hnone₂]
  · simp only [TwoCalls.run, List.foldl, TwoCalls.step, Bool.false_eq_true, if_false, if_true,
      step_start_memory s r₁ g₁ t₁ t₂ hnone, step_start_memory s r₂ g₂ t₃ t₄ hnone₂,
      step_checked_memory s r₁ g₁ t₁ t₂ hfresh₁, step_checked_memory _ r₂ g₂ t₃ t₄ hfresh₂',
      List.append_assoc, List.singleton_append]
    rw [hemail]

/-- Two registrations of "ada@x.io" on the store that holds `bob`: under the
schedule first, second, first, second both return an account, and the store
ends with two documents for "ada@x.io". -/
theorem concurrent_creates_share_email_witness :
    TwoCalls.run memory
        { store := [Example.bob],
          first := .start { Name := "Ada", Email := "ada@x.io", Password := Example.hashOfSecret1 }
            1 1700000000000000000 1700000000000000000,
          second := .start { Name := "Eve", Email := "ada@x.io", Password := Example.hashOfSecret1 }
            3 Example.instant Example.instant }
        [false, true, false, true] =
      { store := [Example.bob, Example.ada,
          { _id := 3, name := "Eve", email := "ada@x.io", password := Example.hashOfSecret1,
            created_at := 1700000000200, updated_at := 1700000000200, updatedAt := none }],
        first := .returned (.ok { ID := 1, Name := "Ada", Email := "ada@x.io",
                                  Password := Example.hashOfSecret1,
                                  CreatedAt := 1700000000000000000,
                                  UpdatedAt := 1700000000000000000 }),
        second := .returned (.ok { ID := 3, Name := "Eve", Email := "ada@x.io",
                                   Password := Example.hashOfSecret1,
                                   CreatedAt := Example.instant,
                                   UpdatedAt := Example.instant }) } :=
  (concurrent_creates_share_email [Example.bob]
    { Name := "Ada", Email := "ada@x.io", Password := Example.hashOfSecret1 }
    { Name := "Eve", Email := "ada@x.io", Password := Example.hashOfSecret1 }
    1 3 1700000000000000000 1700000000000000000 Example.instant Example.instant
    rfl (by decide) (by decide) (by decide) (by decide)).2

end users

/-! ## The token middleware -/

namespace middleware

open response

/-- The outcomes of the handler: a 401 response with an empty trace id, or,
for a token that the authenticator accepts, the next handler with the "sub"
claim as `userId` when that claim is a string, and a panic when it is not. -/
theorem ValidateToken_outcomes (jwtAuth : auth.IAuthenticator)
    (authHeader : AuthorizationHeader) (now : Time) :
    (∃ msg, ValidateToken jwtAuth authHeader now =
      .respond (fiber.StatusUnauthorized,
        .error (some { TraceId := "", Message := msg }))) ∨
    (∃ token jwtToken, jwtAuth.ValidateToken token now = .ok jwtToken ∧
      ((∃ userId, jwtToken.Claims.lookup "sub" = some (.str userId) ∧
          ValidateToken jwtAuth authHeader now = .next userId) ∨
        ((∀ userId, jwtToken.Claims.lookup "sub" ≠ some (.str userId)) ∧
          ValidateToken jwtAuth authHeader now = .panic))) := by
  have hv : ∀ token, (∃ msg, validate jwtAuth token now =
      .respond (fiber.StatusUnauthorized,
        .error (some { TraceId := "", Message := msg }))) ∨
    (∃ jwtToken, jwtAuth.ValidateToken token now = .ok jwtToken ∧
      ((∃ userId, jwtToken.Claims.lookup "sub" = some (.str userId) ∧
          validate jwtAuth token now = .next userId) ∨
        ((∀ userId, jwtToken.Claims.lookup "sub" ≠ some (.str userId)) ∧
          validate jwtAuth token now = .panic))) := by
    intro token
    unfold validate
    cases hval : jwtAuth.ValidateToken token now with
    | error e => exact Or.inl ⟨_, rfl⟩
    | ok t =>
      refine Or.inr ⟨t, rfl, ?_⟩
      simp only []
      cases hs : t.Claims.lookup "sub" with
      | none => exact Or.inr ⟨by simp, rfl⟩
      | some v =>
        cases v with
        | str u => exact Or.inl ⟨u, rfl, rfl⟩
        | num n => exact Or.inr ⟨by simp, rfl⟩
        | strs l => exact Or.inr ⟨by simp, rfl⟩
        | mixed => exact Or.inr ⟨by simp, rfl⟩
        | other => exact Or.inr ⟨by simp, rfl⟩
  unfold ValidateToken
  cases authHeader with
  | text s =>
    simp only []
    have hm := hv (.malformed ⟨s.data.drop 7⟩)
    split_ifs
    all_goals first
      | exact Or.inl ⟨_, rfl⟩
      | (rcases hm with h | ⟨t, ht, h⟩
         · exact Or.inl h
         · exact Or.inr ⟨_, t, ht, h⟩)
  | bearer alg claims sig =>
    rcases hv (.compact alg claims sig) with h | ⟨t, ht, h⟩
    · exact Or.inl h
    · exact Or.inr ⟨_, t, ht, h⟩

/-- C28, on the code: the middleware is not total on accepted tokens. A token
signed with the configured secret under HS256, with a valid expiry, issuer
and audience and no "sub" claim, is accepted by the authenticator, and the
handler then panics in the type assertion on "sub"; so it does when "sub" is
a number. -/
theorem accepted_token_without_sub_panics :
    Example.authenticator.ValidateToken
        (.compact (some "HS256") Example.claimsWithoutSub (.hs256 (hmac.keyBlock (bytes "k"))))
        Example.instant =
      .ok { Raw := .compact (some "HS256") Example.claimsWithoutSub
                     (.hs256 (hmac.keyBlock (bytes "k"))),
            Method := "HS256", Claims := Example.claimsWithoutSub,
            Signature := .hs256 (hmac.keyBlock (bytes "k")), Valid := true } ∧
    ValidateToken Example.authenticator.toIAuthenticator
        (.bearer (some "HS256") Example.claimsWithoutSub (.hs256 (hmac.keyBlock (bytes "k"))))
        Example.instant = .panic ∧
    ValidateToken Example.authenticator.toIAuthenticator
        (.bearer (some "HS256") Example.claimsWithNumericSub
          (.hs256 (hmac.keyBlock (bytes "k"))))
        Example.instant = .panic := by
  decide

end middleware

end Solution7
